import Mathlib

/-!
Verification development for the dWillManagement repository.

Part 1 models the on-chain will manager contract
(`src/contract/src/DecentralizedWillManager.sol`): wills with beneficiary
lists, dual vaults, a dead-man's-switch timer and phased execution
authorization.

Part 2 models the event projection engine (indexer `db.js` / `indexer.js`):
a relational replica updated by applying domain events.

Part 3 models the read-only query API (`api.js`).
-/

namespace Contract

/-- A beneficiary entry of a will (struct `Beneficiary`). -/
structure Beneficiary where
  wallet : Nat
  share : Nat
  isGuardian : Bool
deriving DecidableEq, Repr

/-- A will record (struct `Will`).  Addresses are `Nat`, `0` being the zero
address (the Solidity mapping default has `testator = 0`). -/
structure Will where
  testator : Nat
  beneficiaries : List Beneficiary
  lockedVault : Nat
  flexibleVault : Nat
  lastCheckIn : Nat
  checkInPeriod : Nat
  disputePeriod : Nat
  executed : Bool
deriving DecidableEq, Repr

/-- The default (non-existent) will stored in the mapping. -/
def emptyWill : Will :=
  { testator := 0, beneficiaries := [], lockedVault := 0, flexibleVault := 0,
    lastCheckIn := 0, checkInPeriod := 0, disputePeriod := 0, executed := false }

/-- Error taxonomy: each constructor corresponds to one `require` message of
the contract, named as in the specification's error taxonomy. -/
inductive CErr where
  | NotFound            -- "Will does not exist" / "Beneficiary not found"
  | WillExecuted        -- "Will already executed"
  | AlreadyExists       -- "Will already exists"
  | InvalidInput        -- invalid share / period / address arguments
  | DuplicateBeneficiary
  | GuardianConflict    -- "Guardian already exists"
  | ShareOverflow       -- "Total shares cannot exceed 100%"
  | PhaseNotElapsed     -- "Check-in period has not expired"
  | Unauthorized        -- guardian-only / beneficiary-only failures
  | NoFunds             -- "No funds to distribute"
  | SharesIncomplete    -- "Total beneficiary shares must equal 100%"
  | InsufficientBalance -- "Insufficient flexible vault balance"
deriving DecidableEq, Repr

/-- `_isBeneficiaryOfWill`: linear scan for a wallet. -/
def isBeneficiaryOfWill (user : Nat) (w : Will) : Bool :=
  w.beneficiaries.any (fun b => b.wallet == user)

/-- `_isGuardianOfWill`: linear scan for a wallet with the guardian flag. -/
def isGuardianOfWill (user : Nat) (w : Will) : Bool :=
  w.beneficiaries.any (fun b => b.wallet == user && b.isGuardian)

/-- `_hasGuardian`: does any entry carry the guardian flag. -/
def hasGuardian (w : Will) : Bool :=
  w.beneficiaries.any (fun b => b.isGuardian)

/-- `_getTotalShares`: the sum of all shares. -/
def getTotalShares (w : Will) : Nat :=
  (w.beneficiaries.map (fun b => b.share)).sum

/-- `_getBeneficiaryIndex`: index of the first entry with the given wallet. -/
def getBeneficiaryIndex (user : Nat) (w : Will) : Nat :=
  w.beneficiaries.findIdx (fun b => b.wallet == user)

/-- `createWill(checkInPeriod, disputePeriod)` called by `sender` at
block time `time`. -/
def createWill (sender time cp dp : Nat) (w : Will) : Except CErr Will :=
  if w.testator ≠ 0 then .error .AlreadyExists
  else if cp = 0 then .error .InvalidInput
  else if dp = 0 then .error .InvalidInput
  else .ok { w with testator := sender, checkInPeriod := cp, disputePeriod := dp,
                    lastCheckIn := time, executed := false }

/-- `checkIn()` called by the testator at block time `time`. -/
def checkIn (time : Nat) (w : Will) : Except CErr Will :=
  if w.testator = 0 then .error .NotFound
  else if w.executed then .error .WillExecuted
  else .ok { w with lastCheckIn := time }

/-- `addBeneficiary(beneficiary, share, isGuardian)` called by `sender`
(the testator) on the sender's will. -/
def addBeneficiary (sender ben share : Nat) (isG : Bool) (w : Will) :
    Except CErr Will :=
  if w.testator = 0 then .error .NotFound
  else if w.executed then .error .WillExecuted
  else if ¬(share > 0 ∧ share ≤ 100) then .error .InvalidInput
  else if ben = 0 then .error .InvalidInput
  else if ben = sender then .error .InvalidInput
  else if isBeneficiaryOfWill ben w then .error .DuplicateBeneficiary
  else if isG ∧ hasGuardian w then .error .GuardianConflict
  else if ¬(getTotalShares w + share ≤ 100) then .error .ShareOverflow
  else .ok { w with beneficiaries :=
    w.beneficiaries ++ [{ wallet := ben, share := share, isGuardian := isG }] }

/-- `updateBeneficiary(beneficiary, newShare, isGuardian)`. -/
def updateBeneficiary (ben newShare : Nat) (isG : Bool) (w : Will) :
    Except CErr Will :=
  if w.testator = 0 then .error .NotFound
  else if w.executed then .error .WillExecuted
  else if ¬(newShare > 0 ∧ newShare ≤ 100) then .error .InvalidInput
  else if ¬isBeneficiaryOfWill ben w then .error .NotFound
  else
    let idx := getBeneficiaryIndex ben w
    let target := w.beneficiaries.getD idx ⟨0, 0, false⟩
    if isG ∧ ¬target.isGuardian ∧ hasGuardian w then .error .GuardianConflict
    else if ¬(getTotalShares w - target.share + newShare ≤ 100) then
      .error .ShareOverflow
    else .ok { w with beneficiaries :=
      w.beneficiaries.set idx { target with share := newShare, isGuardian := isG } }

/-- `removeBeneficiary(beneficiary)`: swap with the last entry, then pop. -/
def removeBeneficiary (ben : Nat) (w : Will) : Except CErr Will :=
  if w.testator = 0 then .error .NotFound
  else if w.executed then .error .WillExecuted
  else if ¬isBeneficiaryOfWill ben w then .error .NotFound
  else
    let idx := getBeneficiaryIndex ben w
    let last := w.beneficiaries.getD (w.beneficiaries.length - 1) ⟨0, 0, false⟩
    .ok { w with beneficiaries := (w.beneficiaries.set idx last).dropLast }

/-- `depositLocked()` with `msg.value = amount`. -/
def depositLocked (amount : Nat) (w : Will) : Except CErr Will :=
  if w.testator = 0 then .error .NotFound
  else if w.executed then .error .WillExecuted
  else if amount = 0 then .error .InvalidInput
  else .ok { w with lockedVault := w.lockedVault + amount }

/-- `depositFlexible()` with `msg.value = amount`. -/
def depositFlexible (amount : Nat) (w : Will) : Except CErr Will :=
  if w.testator = 0 then .error .NotFound
  else if w.executed then .error .WillExecuted
  else if amount = 0 then .error .InvalidInput
  else .ok { w with flexibleVault := w.flexibleVault + amount }

/-- `withdrawFlexible(amount)`. -/
def withdrawFlexible (amount : Nat) (w : Will) : Except CErr Will :=
  if w.testator = 0 then .error .NotFound
  else if w.executed then .error .WillExecuted
  else if amount = 0 then .error .InvalidInput
  else if ¬(amount ≤ w.flexibleVault) then .error .InsufficientBalance
  else .ok { w with flexibleVault := w.flexibleVault - amount }

/-- `executeWill(testator)` called by `caller` at block time `time`.
On success returns the new will state together with the list of payouts
`(wallet, amount)` made to the beneficiaries, in list order. -/
def executeWill (caller time : Nat) (w : Will) :
    Except CErr (Will × List (Nat × Nat)) :=
  if w.testator = 0 then .error .NotFound
  else if w.executed then .error .WillExecuted
  else
    let deadline := w.lastCheckIn + w.checkInPeriod
    let disputeEnd := deadline + w.disputePeriod
    if ¬(time > deadline) then .error .PhaseNotElapsed
    else if time ≤ disputeEnd ∧ ¬isGuardianOfWill caller w then
      .error .Unauthorized
    else if ¬(time ≤ disputeEnd) ∧ ¬isBeneficiaryOfWill caller w then
      .error .Unauthorized
    else
      let totalFunds := w.lockedVault + w.flexibleVault
      if totalFunds = 0 then .error .NoFunds
      else if getTotalShares w ≠ 100 then .error .SharesIncomplete
      else
        let payouts := w.beneficiaries.map
          (fun b => (b.wallet, totalFunds * b.share / 100))
        .ok ({ w with executed := true, lockedVault := 0, flexibleVault := 0 },
             payouts)

/-- One caller-initiated operation on a single will.  Operations other than
`executeWill` are callable only by the will's owner (the contract addresses
them through `msg.sender`), so they carry no caller argument. -/
inductive Op where
  | createWill (time cp dp : Nat)
  | checkIn (time : Nat)
  | addBeneficiary (ben share : Nat) (isG : Bool)
  | updateBeneficiary (ben newShare : Nat) (isG : Bool)
  | removeBeneficiary (ben : Nat)
  | depositLocked (amount : Nat)
  | depositFlexible (amount : Nat)
  | withdrawFlexible (amount : Nat)
  | executeWill (caller time : Nat)
deriving DecidableEq, Repr

/-- Apply one operation to the owner's will, propagating the revert error. -/
def applyOp (owner : Nat) (op : Op) (w : Will) : Except CErr Will :=
  match op with
  | .createWill time cp dp => createWill owner time cp dp w
  | .checkIn time => checkIn time w
  | .addBeneficiary ben share isG => addBeneficiary owner ben share isG w
  | .updateBeneficiary ben newShare isG => updateBeneficiary ben newShare isG w
  | .removeBeneficiary ben => removeBeneficiary ben w
  | .depositLocked amount => depositLocked amount w
  | .depositFlexible amount => depositFlexible amount w
  | .withdrawFlexible amount => withdrawFlexible amount w
  | .executeWill caller time => (executeWill caller time w).map (fun r => r.1)

/-- Revert semantics: a failed operation leaves the will unchanged. -/
def stepOp (owner : Nat) (op : Op) (w : Will) : Will :=
  match applyOp owner op w with
  | .ok w2 => w2
  | .error _ => w

/-- Run a sequence of operations with revert semantics. -/
def runOps (owner : Nat) (ops : List Op) (w : Will) : Will :=
  ops.foldl (fun s o => stepOp owner o s) w

/-- Sum of a numeric attribute over a beneficiary list (the loop shape of
`_getTotalShares`, generalized so that share totals and guardian counts can
be reasoned about uniformly). -/
def benSum (f : Beneficiary → Nat) (l : List Beneficiary) : Nat :=
  (l.map f).sum

/-- Number of entries carrying the guardian flag. -/
def guardianCount (w : Will) : Nat :=
  benSum (fun b => if b.isGuardian then 1 else 0) w.beneficiaries

/-- The end-to-end scenario of the specification: create a will with
`checkInPeriod = 2592000`, `disputePeriod = 604800`; add beneficiary `2`
with share 60 (not guardian) and guardian `3` with share 40; deposit 10
locked and 5 flexible.  Testator is address `1`, creation at time 0. -/
def scenOps : List Op :=
  [ .createWill 0 2592000 604800,
    .addBeneficiary 2 60 false,
    .addBeneficiary 3 40 true,
    .depositLocked 10,
    .depositFlexible 5 ]

/-- The will state reached by the scenario. -/
def scenWill : Will := runOps 1 scenOps emptyWill

/-- A small concrete will used to instantiate theorems: testator `1`,
beneficiary `2` (share 60), guardian `3` (share 40), vaults 10/5,
`lastCheckIn = 0`, `checkInPeriod = 100`, `disputePeriod = 50`. -/
def cw2 : Will :=
  { testator := 1, beneficiaries := [⟨2, 60, false⟩, ⟨3, 40, true⟩],
    lockedVault := 10, flexibleVault := 5, lastCheckIn := 0,
    checkInPeriod := 100, disputePeriod := 50, executed := false }

/-- The state of `cw2` after a successful execution. -/
def cw2ex : Will :=
  { testator := 1, beneficiaries := [⟨2, 60, false⟩, ⟨3, 40, true⟩],
    lockedVault := 0, flexibleVault := 0, lastCheckIn := 0,
    checkInPeriod := 100, disputePeriod := 50, executed := true }

end Contract

namespace Projection

/-- ASCII lower-casing of one character, as JavaScript
`String.prototype.toLowerCase` acts on the address strings handled here
(the Lean core `String.toLower` is equivalent on ASCII but does not reduce
inside the kernel, so the model spells the function out). -/
def lowerChar (c : Char) : Char :=
  if 65 ≤ c.toNat ∧ c.toNat ≤ 90 then Char.ofNat (c.toNat + 32) else c

/-- `s.toLowerCase()` in the indexer code. -/
def lowerStr (s : String) : String := String.mk (s.data.map lowerChar)

/-- A row of the `Wills` table (indexer `db.js`).  `guardian` is nullable;
`executed` is the 0/1 integer column read as a boolean. -/
structure WillRow where
  willId : String
  testator : String
  guardian : Option String
  checkInPeriod : Nat
  disputePeriod : Nat
  lastCheckIn : Nat
  executed : Bool
  createdAt : Nat
  updatedAt : Nat
deriving DecidableEq, Repr

/-- A row of the `Beneficiaries` table, keyed by `(willId, beneficiary)`. -/
structure BenRow where
  willId : String
  beneficiary : String
  share : Nat
deriving DecidableEq, Repr

/-- A row of the `Vaults` table, keyed by `(willId, vaultType)`.  The balance
is stored as the decimal text of a BigInt; we model its integer value. -/
structure VaultRow where
  willId : String
  vaultType : String
  balance : Int
deriving DecidableEq, Repr

/-- The replica database. -/
structure DB where
  wills : List WillRow
  bens : List BenRow
  vaults : List VaultRow
deriving DecidableEq, Repr

/-- A fresh replica. -/
def emptyDB : DB := { wills := [], bens := [], vaults := [] }

/-- `INSERT OR REPLACE` into `Wills` (primary key `willId`). -/
def upsertWill (r : WillRow) : List WillRow → List WillRow
  | [] => [r]
  | x :: xs => if x.willId = r.willId then r :: xs else x :: upsertWill r xs

/-- `INSERT OR REPLACE` into `Beneficiaries` (unique `(willId, beneficiary)`). -/
def upsertBen (r : BenRow) : List BenRow → List BenRow
  | [] => [r]
  | x :: xs =>
    if x.willId = r.willId ∧ x.beneficiary = r.beneficiary then r :: xs
    else x :: upsertBen r xs

/-- `INSERT OR REPLACE` into `Vaults` (primary key `(willId, vaultType)`). -/
def upsertVault (r : VaultRow) : List VaultRow → List VaultRow
  | [] => [r]
  | x :: xs =>
    if x.willId = r.willId ∧ x.vaultType = r.vaultType then r :: xs
    else x :: upsertVault r xs

/-- Does a `Wills` row with this `willId` exist?  The database is created
with `db.pragma('foreign_keys = ON')`, and both `Beneficiaries` and
`Vaults` declare `FOREIGN KEY (willId) REFERENCES Wills(willId)`, so a
child-row insert succeeds exactly when such a parent row exists. -/
def willRowExists (db : DB) (wid : String) : Bool :=
  db.wills.any (fun w => w.willId = wid)

/-- `initializeVaults`: `INSERT OR IGNORE` both vault rows at balance 0. -/
def insVaultIfAbsent (wid vt : String) (vs : List VaultRow) : List VaultRow :=
  if vs.any (fun v => v.willId = wid ∧ v.vaultType = vt) then vs
  else vs ++ [{ willId := wid, vaultType := vt, balance := 0 }]

def initializeVaults (wid : String) (db : DB) : DB :=
  { db with vaults := insVaultIfAbsent wid "flexible"
                        (insVaultIfAbsent wid "locked" db.vaults) }

/-- `createWill(testator, checkInPeriod, disputePeriod)` in `db.js`:
`INSERT OR REPLACE` the will row with `lastCheckIn`, `createdAt` and
`updatedAt` all set to the wall-clock time `now`; columns not named in the
insert (`guardian`, `executed`) take their defaults.  Then initialize the
vault rows. -/
def dbCreateWill (testator : String) (cp dp now : Nat) (db : DB) : DB :=
  let wid := lowerStr testator
  let row : WillRow :=
    { willId := wid, testator := lowerStr testator, guardian := none,
      checkInPeriod := cp, disputePeriod := dp, lastCheckIn := now,
      executed := false, createdAt := now, updatedAt := now }
  initializeVaults wid { db with wills := upsertWill row db.wills }

/-- `updateLastCheckIn(testator, timestamp)`: `UPDATE Wills SET lastCheckIn,
updatedAt WHERE testator = ?`. -/
def dbUpdateLastCheckIn (testator : String) (ts now : Nat) (db : DB) : DB :=
  { db with wills := db.wills.map (fun w =>
      if w.testator = lowerStr testator then
        { w with lastCheckIn := ts, updatedAt := now }
      else w) }

/-- `executeWill(testator)` in `db.js`: `UPDATE Wills SET executed = 1,
updatedAt WHERE testator = ?`. -/
def dbExecuteWill (testator : String) (now : Nat) (db : DB) : DB :=
  { db with wills := db.wills.map (fun w =>
      if w.testator = lowerStr testator then
        { w with executed := true, updatedAt := now }
      else w) }

/-- `updateGuardian(willId, guardian)`. -/
def dbUpdateGuardian (wid guardian : String) (now : Nat) (db : DB) : DB :=
  { db with wills := db.wills.map (fun w =>
      if w.willId = wid then
        { w with guardian := some (lowerStr guardian), updatedAt := now }
      else w) }

/-- `addBeneficiary(testator, beneficiary, share, isGuardian)` in `db.js`.
With `foreign_keys = ON`, the `INSERT OR REPLACE INTO Beneficiaries`
throws when no parent `Wills` row exists; the indexer handler catches the
error and skips the event, leaving the replica unchanged. -/
def dbAddBeneficiary (testator ben : String) (share : Nat) (isG : Bool)
    (now : Nat) (db : DB) : DB :=
  let wid := lowerStr testator
  if willRowExists db wid then
    let db1 := { db with bens := upsertBen ⟨wid, lowerStr ben, share⟩ db.bens }
    if isG then dbUpdateGuardian wid ben now db1 else db1
  else db

/-- `removeBeneficiary(testator, beneficiary)` in `db.js`: delete the row,
then clear the guardian column where it named the removed beneficiary. -/
def dbRemoveBeneficiary (testator ben : String) (now : Nat) (db : DB) : DB :=
  let wid := lowerStr testator
  let db1 := { db with bens := db.bens.filter (fun b =>
      ¬(b.willId = wid ∧ b.beneficiary = lowerStr ben)) }
  { db1 with wills := db1.wills.map (fun w =>
      if w.willId = wid ∧ w.guardian = some (lowerStr ben) then
        { w with guardian := none, updatedAt := now }
      else w) }

/-- `updateBeneficiary(testator, beneficiary, newShare, isGuardian)` in
`db.js`: a plain `UPDATE` (a no-op when the row is absent). -/
def dbUpdateBeneficiary (testator ben : String) (newShare : Nat) (isG : Bool)
    (now : Nat) (db : DB) : DB :=
  let wid := lowerStr testator
  let db1 := { db with bens := db.bens.map (fun b =>
      if b.willId = wid ∧ b.beneficiary = lowerStr ben then
        { b with share := newShare }
      else b) }
  if isG then dbUpdateGuardian wid ben now db1 else db1

/-- `updateVaultBalance(testator, vaultType, amount, isDeposit)`: read the
current balance (0 when the row is absent), add or subtract the delta, clamp
at zero, and `INSERT OR REPLACE` the row.  With `foreign_keys = ON` the
insert throws when no parent `Wills` row exists; the handler catches the
error and skips the event, leaving the replica unchanged. -/
def dbUpdateVaultBalance (testator vt : String) (amount : Nat)
    (isDeposit : Bool) (db : DB) : DB :=
  let wid := lowerStr testator
  if willRowExists db wid then
    let cur : Int :=
      match db.vaults.find? (fun v => v.willId = wid ∧ v.vaultType = vt) with
      | some v => v.balance
      | none => 0
    let newB : Int := if isDeposit then cur + amount else cur - amount
    let fin : Int := if newB < 0 then 0 else newB
    { db with vaults := upsertVault ⟨wid, vt, fin⟩ db.vaults }
  else db

/-- The domain events consumed by the indexer (live handlers in
`indexer.js` and the historical path `processHistoricalEvent`, which call
the same `db.js` functions with the same arguments). -/
inductive Event where
  | WillCreated (testator : String) (cp dp : Nat)
  | CheckIn (testator : String) (timestamp : Nat)
  | WillExecuted (testator : String)
  | BeneficiaryAdded (testator ben : String) (share : Nat) (isG : Bool)
  | BeneficiaryRemoved (testator ben : String)
  | BeneficiaryUpdated (testator ben : String) (newShare : Nat) (isG : Bool)
  | DepositLocked (testator : String) (amount : Nat)
  | DepositFlexible (testator : String) (amount : Nat)
  | WithdrawFlexible (testator : String) (amount : Nat)
  | DisputeStarted (testator : String)
deriving DecidableEq, Repr

/-- Apply one event to the replica.  `now` is the wall-clock time
(`Math.floor(Date.now() / 1000)`) at which the handler runs. -/
def applyEvent (now : Nat) (e : Event) (db : DB) : DB :=
  match e with
  | .WillCreated t cp dp => dbCreateWill t cp dp now db
  | .CheckIn t ts => dbUpdateLastCheckIn t ts now db
  | .WillExecuted t => dbExecuteWill t now db
  | .BeneficiaryAdded t b s g => dbAddBeneficiary t b s g now db
  | .BeneficiaryRemoved t b => dbRemoveBeneficiary t b now db
  | .BeneficiaryUpdated t b s g => dbUpdateBeneficiary t b s g now db
  | .DepositLocked t a => dbUpdateVaultBalance t "locked" a true db
  | .DepositFlexible t a => dbUpdateVaultBalance t "flexible" a true db
  | .WithdrawFlexible t a => dbUpdateVaultBalance t "flexible" a false db
  | .DisputeStarted _ => db

/-- Apply an ordered sequence of events, each tagged with the wall-clock
time at which its handler runs. -/
def applyEvents (tes : List (Nat × Event)) (db : DB) : DB :=
  tes.foldl (fun d te => applyEvent te.1 te.2 d) db

/-- The stored balance of a vault (`SELECT balance FROM Vaults WHERE willId
AND vaultType`), 0 when the row is absent. -/
def vaultBalance (db : DB) (testator vt : String) : Int :=
  match db.vaults.find? (fun v =>
      v.willId = lowerStr testator ∧ v.vaultType = vt) with
  | some v => v.balance
  | none => 0

/-- The foreign-key invariant SQLite maintains on the `Vaults` table:
every vault row's `willId` references an existing `Wills` row.  Every
state the real database can reach satisfies it. -/
def fkConsistentVaults (db : DB) : Bool :=
  db.vaults.all (fun v => willRowExists db v.willId)

/-- Is the event one of the vault-balance delta events. -/
def isVaultEvent : Event → Bool
  | .DepositLocked _ _ => true
  | .DepositFlexible _ _ => true
  | .WithdrawFlexible _ _ => true
  | _ => false

/-- The wall-clock-independent part of a will row: everything except
`lastCheckIn`, `createdAt` and `updatedAt`. -/
def stripWill (w : WillRow) : String × String × Option String × Nat × Nat × Bool :=
  (w.willId, w.testator, w.guardian, w.checkInPeriod, w.disputePeriod,
   w.executed)

/-- The wall-clock-independent part of the replica. -/
def stripDB (db : DB) :
    List (String × String × Option String × Nat × Nat × Bool) ×
      List BenRow × List VaultRow :=
  (db.wills.map stripWill, db.bens, db.vaults)

end Projection

namespace Api

open Projection

/-- One character class of the address regex `[a-fA-F0-9]`. -/
def isHexChar (c : Char) : Bool :=
  c.isDigit || (decide (97 ≤ c.toNat) && decide (c.toNat ≤ 102)) ||
    (decide (65 ≤ c.toNat) && decide (c.toNat ≤ 70))

/-- `isValidAddress` in `api.js`: the regex `^0x[a-fA-F0-9]{40}$` — the
literal prefix `0x` followed by exactly 40 hex characters. -/
def isValidAddress (s : String) : Bool :=
  match s.data with
  | '0' :: 'x' :: rest => rest.length == 40 && rest.all isHexChar
  | _ => false

/-- The observable part of an HTTP response with a JSON payload of type
`α`: status code, `success` flag, `error` message (when present), `details`
(present only in development mode on internal failures) and the data. -/
structure ApiResponse (α : Type) where
  status : Nat
  success : Bool
  errMsg : Option String
  details : Option String
  data : Option α
deriving DecidableEq, Repr

/-- `handleError(res, error, message)`: status 500, a generic message, and
the underlying error detail only when `NODE_ENV === 'development'`. -/
def handleError (α : Type) (devMode : Bool) (errDetail message : String) :
    ApiResponse α :=
  { status := 500, success := false, errMsg := some message,
    details := if devMode then some errDetail else none, data := none }

/-- The `try`/`catch` wrapping of every route handler: a thrown error is
turned into a 500 response with the route's generic message. -/
def tryCatch (α : Type) (devMode : Bool) (genericMsg : String)
    (body : Except String (ApiResponse α)) : ApiResponse α :=
  match body with
  | .ok r => r
  | .error e => handleError α devMode e genericMsg

/-- `getWillDetails(willId)` in `db.js`: the will row looked up by
lower-cased id, together with its beneficiary and vault rows, or `none`
when the will row is absent.  (The `Documents` table is outside the scope
of the modelled claims and is not included.) -/
def getWillDetails (db : DB) (willId : String) :
    Option (WillRow × List BenRow × List VaultRow) :=
  match db.wills.find? (fun w => w.willId = lowerStr willId) with
  | none => none
  | some w =>
    some (w, db.bens.filter (fun b => b.willId = lowerStr willId),
          db.vaults.filter (fun v => v.willId = lowerStr willId))

/-- `getVaults(willId)` in `db.js`. -/
def getVaults (db : DB) (willId : String) : List VaultRow :=
  db.vaults.filter (fun v => v.willId = lowerStr willId)

/-- `getWillsByTestator(testator)` in `db.js`. -/
def getWillsByTestator (db : DB) (testator : String) : List WillRow :=
  db.wills.filter (fun w => w.testator = lowerStr testator)

/-- The payload of `GET /will/:id`. -/
def WillDetail : Type := WillRow × List BenRow × List VaultRow

instance : DecidableEq WillDetail := by
  unfold WillDetail
  infer_instance

/-- `GET /will/:id`: 400 on a malformed id (before any lookup), 404 when
the will is absent, 200 with the detail otherwise. -/
def willHandler (db : DB) (id : String) : ApiResponse WillDetail :=
  if ¬isValidAddress id then
    { status := 400, success := false,
      errMsg := some "Invalid will ID format (should be testator address)",
      details := none, data := none }
  else
    match getWillDetails db id with
    | none => { status := 404, success := false,
                errMsg := some "Will not found", details := none,
                data := none }
    | some d => { status := 200, success := true, errMsg := none,
                  details := none, data := some d }

/-- `GET /vaults/:willId`: 400 on a malformed id, otherwise 200 with the
vault rows (there is no absence check: an unknown id yields 200 with an
empty vault list). -/
def vaultsHandler (db : DB) (willId : String) : ApiResponse (List VaultRow) :=
  if ¬isValidAddress willId then
    { status := 400, success := false,
      errMsg := some "Invalid will ID format (should be testator address)",
      details := none, data := none }
  else
    { status := 200, success := true, errMsg := none, details := none,
      data := some (getVaults db willId) }

/-- `GET /wills/:testator`: 400 on a malformed address, otherwise 200 with
the (possibly empty) list of wills. -/
def willsByTestatorHandler (db : DB) (testator : String) :
    ApiResponse (List WillRow) :=
  if ¬isValidAddress testator then
    { status := 400, success := false,
      errMsg := some "Invalid testator address format", details := none,
      data := none }
  else
    { status := 200, success := true, errMsg := none, details := none,
      data := some (getWillsByTestator db testator) }

end Api

/-! ## Helper lemmas: sums over beneficiary lists -/

namespace Contract

theorem benSum_cons (f : Beneficiary → Nat) (b : Beneficiary)
    (l : List Beneficiary) : benSum f (b :: l) = f b + benSum f l := by
  simp [benSum]

theorem benSum_append (f : Beneficiary → Nat) (l : List Beneficiary)
    (b : Beneficiary) : benSum f (l ++ [b]) = benSum f l + f b := by
  simp [benSum]

theorem benSum_getD_le (f : Beneficiary → Nat) (d : Beneficiary) :
    ∀ (l : List Beneficiary) (i : Nat), i < l.length →
      f (l.getD i d) ≤ benSum f l := by
  intro l
  induction l with
  | nil => intro i h; simp at h
  | cons x xs ih =>
    intro i h
    cases i with
    | zero => simp [benSum]
    | succ n =>
      have h2 : n < xs.length := by simpa using h
      have h3 := ih n h2
      simp only [List.getD_cons_succ, benSum_cons]
      omega

theorem benSum_set (f : Beneficiary → Nat) (d x : Beneficiary) :
    ∀ (l : List Beneficiary) (i : Nat), i < l.length →
      benSum f (l.set i x) + f (l.getD i d) = benSum f l + f x := by
  intro l
  induction l with
  | nil => intro i h; simp at h
  | cons y ys ih =>
    intro i h
    cases i with
    | zero => simp [benSum]; omega
    | succ n =>
      have h2 : n < ys.length := by simpa using h
      have h3 := ih n h2
      simp only [List.set_cons_succ, List.getD_cons_succ, benSum_cons]
      omega

theorem getD_eq_getElem (l : List Beneficiary) (i : Nat) (d : Beneficiary)
    (h : i < l.length) : l.getD i d = l[i] := by
  simp [List.getD_eq_getElem?_getD, List.getElem?_eq_getElem h]

theorem benSum_dropLast (f : Beneficiary → Nat) (d : Beneficiary) :
    ∀ (m : List Beneficiary), m ≠ [] →
      benSum f m = benSum f m.dropLast + f (m.getD (m.length - 1) d) := by
  intro m
  induction m with
  | nil => intro h; exact absurd rfl h
  | cons y ys ih =>
    intro _
    cases ys with
    | nil => simp [benSum]
    | cons z zs =>
      have h2 := ih (by simp)
      simp only [List.dropLast_cons₂, benSum_cons, List.length_cons] at h2 ⊢
      have h3 : (z :: zs).length.succ - 1 = zs.length + 1 := by simp
      simp only [List.length_cons] at h3
      rw [show zs.length + 1 + 1 - 1 = zs.length + 1 by omega]
      simp only [List.getD_cons_succ]
      rw [show zs.length + 1 - 1 = zs.length by omega] at h2
      omega

theorem benSum_swapRemove (f : Beneficiary → Nat) (d : Beneficiary)
    (l : List Beneficiary) (i : Nat) (h : i < l.length) :
    benSum f ((l.set i (l.getD (l.length - 1) d)).dropLast)
        + f (l.getD i d) = benSum f l := by
  have hlen : l.length ≠ 0 := by
    intro hc
    omega
  have hml : (l.set i (l.getD (l.length - 1) d)).length = l.length := by
    simp
  have hmne : l.set i (l.getD (l.length - 1) d) ≠ [] := by
    intro hc
    rw [hc] at hml
    simp at hml
    omega
  have h1 := benSum_dropLast f d _ hmne
  have h2 := benSum_set f d (l.getD (l.length - 1) d) l i h
  have h3 : (l.set i (l.getD (l.length - 1) d)).getD
      ((l.set i (l.getD (l.length - 1) d)).length - 1) d
        = l.getD (l.length - 1) d := by
    have hlt : l.length - 1 < (l.set i (l.getD (l.length - 1) d)).length := by
      simp only [List.length_set]
      omega
    simp only [List.length_set]
    rw [getD_eq_getElem _ _ _ hlt]
    rw [List.getElem_set]
    split
    · rfl
    · exact (getD_eq_getElem l (l.length - 1) d (by omega)).symm
  rw [h3] at h1
  omega

theorem benSum_zero_of_any_false (p : Beneficiary → Bool)
    (f : Beneficiary → Nat) (hf : ∀ b, p b = false → f b = 0) :
    ∀ l : List Beneficiary, l.any p = false → benSum f l = 0 := by
  intro l
  induction l with
  | nil => intro _; simp [benSum]
  | cons x xs ih =>
    intro h
    simp only [List.any_cons, Bool.or_eq_false_iff] at h
    rw [benSum_cons, hf x h.1, ih h.2]

/-! ## Inversion lemmas: the success shape of each contract operation -/

theorem createWill_ok (sender time cp dp : Nat) (w w2 : Will)
    (hr : createWill sender time cp dp w = .ok w2) :
    w.testator = 0 ∧ cp ≠ 0 ∧ dp ≠ 0 ∧
      w2 = { w with testator := sender, checkInPeriod := cp,
                    disputePeriod := dp, lastCheckIn := time,
                    executed := false } := by
  simp only [createWill] at hr
  split_ifs at hr with h1 h2 h3
  all_goals simp_all

theorem checkIn_ok (time : Nat) (w w2 : Will)
    (hr : checkIn time w = .ok w2) :
    w.testator ≠ 0 ∧ w.executed = false ∧
      w2 = { w with lastCheckIn := time } := by
  simp only [checkIn] at hr
  split_ifs at hr with h1 h2
  all_goals simp_all

theorem addBeneficiary_ok (sender ben share : Nat) (isG : Bool) (w w2 : Will)
    (hr : addBeneficiary sender ben share isG w = .ok w2) :
    w.testator ≠ 0 ∧ w.executed = false ∧ 0 < share ∧ share ≤ 100 ∧
      ben ≠ 0 ∧ ben ≠ sender ∧ isBeneficiaryOfWill ben w = false ∧
      (isG = true → hasGuardian w = false) ∧
      getTotalShares w + share ≤ 100 ∧
      w2 = { w with beneficiaries := w.beneficiaries ++
        [{ wallet := ben, share := share, isGuardian := isG }] } := by
  simp only [addBeneficiary] at hr
  split_ifs at hr with h1 h2 h3 h4 h5 h6 h7 h8
  all_goals simp_all

theorem updateBeneficiary_ok (ben newShare : Nat) (isG : Bool) (w w2 : Will)
    (hr : updateBeneficiary ben newShare isG w = .ok w2) :
    w.testator ≠ 0 ∧ w.executed = false ∧ 0 < newShare ∧ newShare ≤ 100 ∧
      isBeneficiaryOfWill ben w = true ∧
      (isG = true →
        (w.beneficiaries.getD (getBeneficiaryIndex ben w)
            ⟨0, 0, false⟩).isGuardian = true ∨ hasGuardian w = false) ∧
      getTotalShares w
          - (w.beneficiaries.getD (getBeneficiaryIndex ben w)
              ⟨0, 0, false⟩).share + newShare ≤ 100 ∧
      w2 = { w with beneficiaries := (w.beneficiaries.set
        (getBeneficiaryIndex ben w)
        ⟨(w.beneficiaries.getD (getBeneficiaryIndex ben w)
            ⟨0, 0, false⟩).wallet, newShare, isG⟩) } := by
  simp only [updateBeneficiary] at hr
  split_ifs at hr with h1 h2 h3 h4 h5 h6
  all_goals simp_all [Bool.not_eq_true]
  all_goals
    cases hG : (w.beneficiaries.getD (getBeneficiaryIndex ben w)
      ⟨0, 0, false⟩).isGuardian <;> simp_all

theorem removeBeneficiary_ok (ben : Nat) (w w2 : Will)
    (hr : removeBeneficiary ben w = .ok w2) :
    w.testator ≠ 0 ∧ w.executed = false ∧
      isBeneficiaryOfWill ben w = true ∧
      w2 = { w with beneficiaries := ((w.beneficiaries.set
        (getBeneficiaryIndex ben w)
        (w.beneficiaries.getD (w.beneficiaries.length - 1)
          ⟨0, 0, false⟩)).dropLast) } := by
  simp only [removeBeneficiary] at hr
  split_ifs at hr with h1 h2 h3
  all_goals simp_all

theorem depositLocked_ok (amount : Nat) (w w2 : Will)
    (hr : depositLocked amount w = .ok w2) :
    w.testator ≠ 0 ∧ w.executed = false ∧ amount ≠ 0 ∧
      w2 = { w with lockedVault := w.lockedVault + amount } := by
  simp only [depositLocked] at hr
  split_ifs at hr with h1 h2 h3
  all_goals simp_all

theorem depositFlexible_ok (amount : Nat) (w w2 : Will)
    (hr : depositFlexible amount w = .ok w2) :
    w.testator ≠ 0 ∧ w.executed = false ∧ amount ≠ 0 ∧
      w2 = { w with flexibleVault := w.flexibleVault + amount } := by
  simp only [depositFlexible] at hr
  split_ifs at hr with h1 h2 h3
  all_goals simp_all

theorem withdrawFlexible_ok (amount : Nat) (w w2 : Will)
    (hr : withdrawFlexible amount w = .ok w2) :
    w.testator ≠ 0 ∧ w.executed = false ∧ amount ≠ 0 ∧
      amount ≤ w.flexibleVault ∧
      w2 = { w with flexibleVault := w.flexibleVault - amount } := by
  simp only [withdrawFlexible] at hr
  split_ifs at hr with h1 h2 h3 h4
  all_goals simp_all

theorem isBeneficiary_findIdx_lt (ben : Nat) (w : Will)
    (h : isBeneficiaryOfWill ben w = true) :
    getBeneficiaryIndex ben w < w.beneficiaries.length := by
  have h2 : ∃ b ∈ w.beneficiaries, (b.wallet == ben) = true := by
    simpa [isBeneficiaryOfWill, List.any_eq_true] using h
  exact List.findIdx_lt_length_of_exists h2

theorem executeWill_ok (caller time : Nat) (w w2 : Will)
    (ps : List (Nat × Nat)) (hr : executeWill caller time w = .ok (w2, ps)) :
    w.testator ≠ 0 ∧ w.executed = false ∧
      w.lastCheckIn + w.checkInPeriod < time ∧
      (time ≤ w.lastCheckIn + w.checkInPeriod + w.disputePeriod →
        isGuardianOfWill caller w = true) ∧
      (w.lastCheckIn + w.checkInPeriod + w.disputePeriod < time →
        isBeneficiaryOfWill caller w = true) ∧
      0 < w.lockedVault + w.flexibleVault ∧
      getTotalShares w = 100 ∧
      ps = w.beneficiaries.map (fun b =>
        (b.wallet, (w.lockedVault + w.flexibleVault) * b.share / 100)) ∧
      w2 = { w with executed := true, lockedVault := 0,
                    flexibleVault := 0 } := by
  simp only [executeWill] at hr
  split_ifs at hr with h1 h2 h3 h4 h5 h6
  all_goals simp_all
  all_goals omega

/-! ## Preservation of the share-sum and guardian-count invariants -/

theorem totalShares_stepOp_le (owner : Nat) (op : Op) (w : Will)
    (h : getTotalShares w ≤ 100) : getTotalShares (stepOp owner op w) ≤ 100 := by
  cases op with
  | createWill time cp dp =>
    cases hr : applyOp owner (Op.createWill time cp dp) w with
    | error e => simpa [stepOp, hr] using h
    | ok w2 =>
      have hstep : stepOp owner (Op.createWill time cp dp) w = w2 := by
        simp [stepOp, hr]
      simp only [applyOp] at hr
      obtain ⟨_, _, _, hw⟩ := createWill_ok owner time cp dp w w2 hr
      rw [hstep, hw]
      simpa [getTotalShares] using h
  | checkIn time =>
    cases hr : applyOp owner (Op.checkIn time) w with
    | error e => simpa [stepOp, hr] using h
    | ok w2 =>
      have hstep : stepOp owner (Op.checkIn time) w = w2 := by
        simp [stepOp, hr]
      simp only [applyOp] at hr
      obtain ⟨_, _, hw⟩ := checkIn_ok time w w2 hr
      rw [hstep, hw]
      simpa [getTotalShares] using h
  | addBeneficiary ben share isG =>
    cases hr : applyOp owner (Op.addBeneficiary ben share isG) w with
    | error e => simpa [stepOp, hr] using h
    | ok w2 =>
      have hstep : stepOp owner (Op.addBeneficiary ben share isG) w = w2 := by
        simp [stepOp, hr]
      simp only [applyOp] at hr
      obtain ⟨_, _, _, _, _, _, _, _, h9, hw⟩ :=
        addBeneficiary_ok owner ben share isG w w2 hr
      rw [hstep, hw]
      show benSum (fun b => b.share)
        (w.beneficiaries ++ [⟨ben, share, isG⟩]) ≤ 100
      rw [benSum_append]
      have he : benSum (fun b => b.share) w.beneficiaries = getTotalShares w :=
        rfl
      have hc : (Beneficiary.mk ben share isG).share = share := rfl
      omega
  | updateBeneficiary ben newShare isG =>
    cases hr : applyOp owner (Op.updateBeneficiary ben newShare isG) w with
    | error e => simpa [stepOp, hr] using h
    | ok w2 =>
      have hstep : stepOp owner (Op.updateBeneficiary ben newShare isG) w = w2 := by
        simp [stepOp, hr]
      simp only [applyOp] at hr
      obtain ⟨_, _, _, _, h5, _, h7, hw⟩ :=
        updateBeneficiary_ok ben newShare isG w w2 hr
      have hlt := isBeneficiary_findIdx_lt ben w h5
      rw [hstep, hw]
      show benSum (fun b => b.share) (w.beneficiaries.set
        (getBeneficiaryIndex ben w)
        ⟨(w.beneficiaries.getD (getBeneficiaryIndex ben w)
            ⟨0, 0, false⟩).wallet, newShare, isG⟩) ≤ 100
      have hset := benSum_set (fun b => b.share) ⟨0, 0, false⟩
        ⟨(w.beneficiaries.getD (getBeneficiaryIndex ben w)
            ⟨0, 0, false⟩).wallet, newShare, isG⟩
        w.beneficiaries (getBeneficiaryIndex ben w) hlt
      have hle := benSum_getD_le (fun b => b.share) ⟨0, 0, false⟩
        w.beneficiaries (getBeneficiaryIndex ben w) hlt
      have he : benSum (fun b => b.share) w.beneficiaries = getTotalShares w :=
        rfl
      simp only [he] at hset hle
      omega
  | removeBeneficiary ben =>
    cases hr : applyOp owner (Op.removeBeneficiary ben) w with
    | error e => simpa [stepOp, hr] using h
    | ok w2 =>
      have hstep : stepOp owner (Op.removeBeneficiary ben) w = w2 := by
        simp [stepOp, hr]
      simp only [applyOp] at hr
      obtain ⟨_, _, h3, hw⟩ := removeBeneficiary_ok ben w w2 hr
      have hlt := isBeneficiary_findIdx_lt ben w h3
      rw [hstep, hw]
      show benSum (fun b => b.share) ((w.beneficiaries.set
        (getBeneficiaryIndex ben w)
        (w.beneficiaries.getD (w.beneficiaries.length - 1)
          ⟨0, 0, false⟩)).dropLast) ≤ 100
      have hrem := benSum_swapRemove (fun b => b.share) ⟨0, 0, false⟩
        w.beneficiaries (getBeneficiaryIndex ben w) hlt
      have he : benSum (fun b => b.share) w.beneficiaries = getTotalShares w :=
        rfl
      simp only [he] at hrem
      omega
  | depositLocked amount =>
    cases hr : applyOp owner (Op.depositLocked amount) w with
    | error e => simpa [stepOp, hr] using h
    | ok w2 =>
      have hstep : stepOp owner (Op.depositLocked amount) w = w2 := by
        simp [stepOp, hr]
      simp only [applyOp] at hr
      obtain ⟨_, _, _, hw⟩ := depositLocked_ok amount w w2 hr
      rw [hstep, hw]
      simpa [getTotalShares] using h
  | depositFlexible amount =>
    cases hr : applyOp owner (Op.depositFlexible amount) w with
    | error e => simpa [stepOp, hr] using h
    | ok w2 =>
      have hstep : stepOp owner (Op.depositFlexible amount) w = w2 := by
        simp [stepOp, hr]
      simp only [applyOp] at hr
      obtain ⟨_, _, _, hw⟩ := depositFlexible_ok amount w w2 hr
      rw [hstep, hw]
      simpa [getTotalShares] using h
  | withdrawFlexible amount =>
    cases hr : applyOp owner (Op.withdrawFlexible amount) w with
    | error e => simpa [stepOp, hr] using h
    | ok w2 =>
      have hstep : stepOp owner (Op.withdrawFlexible amount) w = w2 := by
        simp [stepOp, hr]
      simp only [applyOp] at hr
      obtain ⟨_, _, _, _, hw⟩ := withdrawFlexible_ok amount w w2 hr
      rw [hstep, hw]
      simpa [getTotalShares] using h
  | executeWill caller time =>
    cases he : executeWill caller time w with
    | error e =>
      simpa [stepOp, applyOp, he, Except.map] using h
    | ok r =>
      have hstep : stepOp owner (Op.executeWill caller time) w = r.1 := by
        simp [stepOp, applyOp, he, Except.map]
      obtain ⟨_, _, _, _, _, _, _, _, hw⟩ :=
        executeWill_ok caller time w r.1 r.2 (by rw [he])
      rw [hstep, hw]
      simpa [getTotalShares] using h

theorem guardianCount_zero (w : Will) (h : hasGuardian w = false) :
    guardianCount w = 0 :=
  benSum_zero_of_any_false (fun b => b.isGuardian) _
    (fun b hb => by simp [hb]) w.beneficiaries (by simpa [hasGuardian] using h)

theorem guardianCount_stepOp_le (owner : Nat) (op : Op) (w : Will)
    (h : guardianCount w ≤ 1) : guardianCount (stepOp owner op w) ≤ 1 := by
  cases op with
  | createWill time cp dp =>
    cases hr : applyOp owner (Op.createWill time cp dp) w with
    | error e => simpa [stepOp, hr] using h
    | ok w2 =>
      have hstep : stepOp owner (Op.createWill time cp dp) w = w2 := by
        simp [stepOp, hr]
      simp only [applyOp] at hr
      obtain ⟨_, _, _, hw⟩ := createWill_ok owner time cp dp w w2 hr
      rw [hstep, hw]
      simpa [guardianCount] using h
  | checkIn time =>
    cases hr : applyOp owner (Op.checkIn time) w with
    | error e => simpa [stepOp, hr] using h
    | ok w2 =>
      have hstep : stepOp owner (Op.checkIn time) w = w2 := by
        simp [stepOp, hr]
      simp only [applyOp] at hr
      obtain ⟨_, _, hw⟩ := checkIn_ok time w w2 hr
      rw [hstep, hw]
      simpa [guardianCount] using h
  | addBeneficiary ben share isG =>
    cases hr : applyOp owner (Op.addBeneficiary ben share isG) w with
    | error e => simpa [stepOp, hr] using h
    | ok w2 =>
      have hstep : stepOp owner (Op.addBeneficiary ben share isG) w = w2 := by
        simp [stepOp, hr]
      simp only [applyOp] at hr
      obtain ⟨_, _, _, _, _, _, _, h8, _, hw⟩ :=
        addBeneficiary_ok owner ben share isG w w2 hr
      rw [hstep, hw]
      show benSum (fun b => if b.isGuardian then 1 else 0)
        (w.beneficiaries ++ [⟨ben, share, isG⟩]) ≤ 1
      rw [benSum_append]
      have he : benSum (fun b => if b.isGuardian then 1 else 0) w.beneficiaries
          = guardianCount w := rfl
      cases isG with
      | false => simpa [he] using h
      | true =>
        have h0 := guardianCount_zero w (h8 rfl)
        simp [he, h0]
  | updateBeneficiary ben newShare isG =>
    cases hr : applyOp owner (Op.updateBeneficiary ben newShare isG) w with
    | error e => simpa [stepOp, hr] using h
    | ok w2 =>
      have hstep : stepOp owner (Op.updateBeneficiary ben newShare isG) w = w2 := by
        simp [stepOp, hr]
      simp only [applyOp] at hr
      obtain ⟨_, _, _, _, h5, h6, _, hw⟩ :=
        updateBeneficiary_ok ben newShare isG w w2 hr
      have hlt := isBeneficiary_findIdx_lt ben w h5
      rw [hstep, hw]
      show benSum (fun b => if b.isGuardian then 1 else 0) (w.beneficiaries.set
        (getBeneficiaryIndex ben w)
        ⟨(w.beneficiaries.getD (getBeneficiaryIndex ben w)
            ⟨0, 0, false⟩).wallet, newShare, isG⟩) ≤ 1
      have hset := benSum_set (fun b => if b.isGuardian then 1 else 0)
        ⟨0, 0, false⟩
        ⟨(w.beneficiaries.getD (getBeneficiaryIndex ben w)
            ⟨0, 0, false⟩).wallet, newShare, isG⟩
        w.beneficiaries (getBeneficiaryIndex ben w) hlt
      have hle := benSum_getD_le (fun b => if b.isGuardian then 1 else 0)
        ⟨0, 0, false⟩ w.beneficiaries (getBeneficiaryIndex ben w) hlt
      have he : benSum (fun b => if b.isGuardian then 1 else 0) w.beneficiaries
          = guardianCount w := rfl
      simp only [he] at hset hle
      cases isG with
      | false =>
        simp at hset hle ⊢
        omega
      | true =>
        rcases h6 rfl with ht | hg
        · simp only [List.getD_eq_getElem?_getD] at ht
          simp [ht] at hset hle ⊢
          omega
        · have h0 := guardianCount_zero w hg
          simp at hset hle ⊢
          omega
  | removeBeneficiary ben =>
    cases hr : applyOp owner (Op.removeBeneficiary ben) w with
    | error e => simpa [stepOp, hr] using h
    | ok w2 =>
      have hstep : stepOp owner (Op.removeBeneficiary ben) w = w2 := by
        simp [stepOp, hr]
      simp only [applyOp] at hr
      obtain ⟨_, _, h3, hw⟩ := removeBeneficiary_ok ben w w2 hr
      have hlt := isBeneficiary_findIdx_lt ben w h3
      rw [hstep, hw]
      show benSum (fun b => if b.isGuardian then 1 else 0) ((w.beneficiaries.set
        (getBeneficiaryIndex ben w)
        (w.beneficiaries.getD (w.beneficiaries.length - 1)
          ⟨0, 0, false⟩)).dropLast) ≤ 1
      have hrem := benSum_swapRemove (fun b => if b.isGuardian then 1 else 0)
        ⟨0, 0, false⟩ w.beneficiaries (getBeneficiaryIndex ben w) hlt
      have he : benSum (fun b => if b.isGuardian then 1 else 0) w.beneficiaries
          = guardianCount w := rfl
      simp only [he] at hrem
      omega
  | depositLocked amount =>
    cases hr : applyOp owner (Op.depositLocked amount) w with
    | error e => simpa [stepOp, hr] using h
    | ok w2 =>
      have hstep : stepOp owner (Op.depositLocked amount) w = w2 := by
        simp [stepOp, hr]
      simp only [applyOp] at hr
      obtain ⟨_, _, _, hw⟩ := depositLocked_ok amount w w2 hr
      rw [hstep, hw]
      simpa [guardianCount] using h
  | depositFlexible amount =>
    cases hr : applyOp owner (Op.depositFlexible amount) w with
    | error e => simpa [stepOp, hr] using h
    | ok w2 =>
      have hstep : stepOp owner (Op.depositFlexible amount) w = w2 := by
        simp [stepOp, hr]
      simp only [applyOp] at hr
      obtain ⟨_, _, _, hw⟩ := depositFlexible_ok amount w w2 hr
      rw [hstep, hw]
      simpa [guardianCount] using h
  | withdrawFlexible amount =>
    cases hr : applyOp owner (Op.withdrawFlexible amount) w with
    | error e => simpa [stepOp, hr] using h
    | ok w2 =>
      have hstep : stepOp owner (Op.withdrawFlexible amount) w = w2 := by
        simp [stepOp, hr]
      simp only [applyOp] at hr
      obtain ⟨_, _, _, _, hw⟩ := withdrawFlexible_ok amount w w2 hr
      rw [hstep, hw]
      simpa [guardianCount] using h
  | executeWill caller time =>
    cases he : executeWill caller time w with
    | error e =>
      simpa [stepOp, applyOp, he, Except.map] using h
    | ok r =>
      have hstep : stepOp owner (Op.executeWill caller time) w = r.1 := by
        simp [stepOp, applyOp, he, Except.map]
      obtain ⟨_, _, _, _, _, _, _, _, hw⟩ :=
        executeWill_ok caller time w r.1 r.2 (by rw [he])
      rw [hstep, hw]
      simpa [guardianCount] using h

/-! ## Error behaviour lemmas -/

theorem stepOp_of_error (owner : Nat) (op : Op) (w : Will) (e : CErr)
    (h : applyOp owner op w = .error e) : stepOp owner op w = w := by
  simp [stepOp, h]

theorem addBeneficiary_shareOverflow (sender ben share : Nat) (isG : Bool)
    (w : Will) (h1 : w.testator ≠ 0) (h2 : w.executed = false)
    (h3 : 0 < share) (h4 : share ≤ 100) (h5 : ben ≠ 0) (h6 : ben ≠ sender)
    (h7 : isBeneficiaryOfWill ben w = false)
    (h8 : isG = true → hasGuardian w = false)
    (h9 : 100 < getTotalShares w + share) :
    addBeneficiary sender ben share isG w = .error .ShareOverflow := by
  cases isG with
  | false =>
    simp only [addBeneficiary]
    split_ifs with g1 g2 g3 g4 g5 g6
    all_goals simp_all
    all_goals omega
  | true =>
    simp only [addBeneficiary]
    split_ifs with g1 g2 g3 g4 g5 g6
    all_goals simp_all
    all_goals omega

theorem updateBeneficiary_shareOverflow (ben newShare : Nat) (isG : Bool)
    (w : Will) (h1 : w.testator ≠ 0) (h2 : w.executed = false)
    (h3 : 0 < newShare) (h4 : newShare ≤ 100)
    (h5 : isBeneficiaryOfWill ben w = true)
    (h6 : isG = true →
      (w.beneficiaries.getD (getBeneficiaryIndex ben w)
          ⟨0, 0, false⟩).isGuardian = true ∨ hasGuardian w = false)
    (h7 : 100 < getTotalShares w
      - (w.beneficiaries.getD (getBeneficiaryIndex ben w)
          ⟨0, 0, false⟩).share + newShare) :
    updateBeneficiary ben newShare isG w = .error .ShareOverflow := by
  simp only [updateBeneficiary]
  rw [if_neg h1]
  rw [if_neg (by simp [h2])]
  rw [if_neg (not_not_intro ⟨h3, h4⟩)]
  rw [if_neg (not_not_intro h5)]
  rw [if_neg (by
    intro hc
    rcases h6 hc.1 with ht | hg
    · exact hc.2.1 ht
    · rw [hg] at hc
      exact absurd hc.2.2 (by simp))]
  rw [if_pos (by omega)]

theorem addBeneficiary_guardianConflict (sender ben share : Nat) (w : Will)
    (h1 : w.testator ≠ 0) (h2 : w.executed = false)
    (h3 : 0 < share) (h4 : share ≤ 100) (h5 : ben ≠ 0) (h6 : ben ≠ sender)
    (h7 : isBeneficiaryOfWill ben w = false)
    (h8 : hasGuardian w = true) :
    addBeneficiary sender ben share true w = .error .GuardianConflict := by
  simp only [addBeneficiary]
  split_ifs with g1 g2 g3 g4 g5 g6
  all_goals simp_all

theorem updateBeneficiary_guardianConflict (ben newShare : Nat) (w : Will)
    (h1 : w.testator ≠ 0) (h2 : w.executed = false)
    (h3 : 0 < newShare) (h4 : newShare ≤ 100)
    (h5 : isBeneficiaryOfWill ben w = true)
    (h6 : (w.beneficiaries.getD (getBeneficiaryIndex ben w)
        ⟨0, 0, false⟩).isGuardian = false)
    (h7 : hasGuardian w = true) :
    updateBeneficiary ben newShare true w = .error .GuardianConflict := by
  simp only [updateBeneficiary]
  split_ifs with g1 g2 g3 g4 g5
  all_goals simp_all

theorem applyOp_executed (owner : Nat) (op : Op) (w : Will)
    (h1 : w.testator ≠ 0) (h2 : w.executed = true) :
    ∃ e : CErr, applyOp owner op w = .error e := by
  cases op with
  | createWill time cp dp =>
    exact ⟨.AlreadyExists, by simp [applyOp, createWill, h1]⟩
  | checkIn time =>
    exact ⟨.WillExecuted, by simp [applyOp, checkIn, h1, h2]⟩
  | addBeneficiary ben share isG =>
    exact ⟨.WillExecuted, by simp [applyOp, addBeneficiary, h1, h2]⟩
  | updateBeneficiary ben newShare isG =>
    exact ⟨.WillExecuted, by simp [applyOp, updateBeneficiary, h1, h2]⟩
  | removeBeneficiary ben =>
    exact ⟨.WillExecuted, by simp [applyOp, removeBeneficiary, h1, h2]⟩
  | depositLocked amount =>
    exact ⟨.WillExecuted, by simp [applyOp, depositLocked, h1, h2]⟩
  | depositFlexible amount =>
    exact ⟨.WillExecuted, by simp [applyOp, depositFlexible, h1, h2]⟩
  | withdrawFlexible amount =>
    exact ⟨.WillExecuted, by simp [applyOp, withdrawFlexible, h1, h2]⟩
  | executeWill caller time =>
    exact ⟨.WillExecuted, by simp [applyOp, executeWill, h1, h2, Except.map]⟩

/-- Every state reachable from the fresh (non-existent) will by any
operation sequence keeps the share sum at most 100 and at most one
guardian. -/
theorem runOps_invariants (owner : Nat) (ops : List Op) :
    ∀ w : Will, getTotalShares w ≤ 100 → guardianCount w ≤ 1 →
      getTotalShares (runOps owner ops w) ≤ 100 ∧
        guardianCount (runOps owner ops w) ≤ 1 := by
  induction ops with
  | nil => intro w h1 h2; exact ⟨h1, h2⟩
  | cons op ops ih =>
    intro w h1 h2
    have hs := totalShares_stepOp_le owner op w h1
    have hg := guardianCount_stepOp_le owner op w h2
    simpa [runOps, List.foldl_cons] using ih (stepOp owner op w) hs hg

end Contract


/-! ## Claim theorems -/

/-- C2: Phased authorization of `executeWill`.  For a will with
`deadline = lastCheckIn + checkInPeriod` and
`disputeEnd = deadline + disputePeriod`, evaluated at time `t` (with the
will existing, not executed, funds positive and total shares exactly 100):
when `t ≤ deadline` the call fails with `PhaseNotElapsed` for every caller;
when `deadline < t ≤ disputeEnd` it succeeds exactly for the guardian and
fails with `Unauthorized` for every other caller; when `t > disputeEnd` it
succeeds exactly for listed beneficiaries and fails with `Unauthorized`
otherwise. -/
theorem C2_executeWill_phased_authorization (caller time : Nat)
    (w : Contract.Will) (hex : w.testator ≠ 0) (hne : w.executed = false)
    (hfunds : 0 < w.lockedVault + w.flexibleVault)
    (hshares : Contract.getTotalShares w = 100) :
    (time ≤ w.lastCheckIn + w.checkInPeriod →
      Contract.executeWill caller time w = .error .PhaseNotElapsed) ∧
    (w.lastCheckIn + w.checkInPeriod < time →
     time ≤ w.lastCheckIn + w.checkInPeriod + w.disputePeriod →
      (Contract.isGuardianOfWill caller w = true →
        ∃ r, Contract.executeWill caller time w = .ok r) ∧
      (Contract.isGuardianOfWill caller w = false →
        Contract.executeWill caller time w = .error .Unauthorized)) ∧
    (w.lastCheckIn + w.checkInPeriod + w.disputePeriod < time →
      (Contract.isBeneficiaryOfWill caller w = true →
        ∃ r, Contract.executeWill caller time w = .ok r) ∧
      (Contract.isBeneficiaryOfWill caller w = false →
        Contract.executeWill caller time w = .error .Unauthorized)) := by
  refine ⟨?_, ?_, ?_⟩
  · intro ht
    simp only [Contract.executeWill]
    rw [if_neg hex, if_neg (by simp [hne]), if_pos (by omega)]
  · intro h1 h2
    constructor
    · intro hg
      simp only [Contract.executeWill]
      rw [if_neg hex, if_neg (by simp [hne]),
          if_neg (not_not_intro (by omega)),
          if_neg (by intro hc; exact hc.2 (by simp [hg])),
          if_neg (by intro hc; exact hc.1 h2),
          if_neg (by omega), if_neg (not_not_intro hshares)]
      exact ⟨_, rfl⟩
    · intro hg
      simp only [Contract.executeWill]
      rw [if_neg hex, if_neg (by simp [hne]),
          if_neg (not_not_intro (by omega)),
          if_pos ⟨h2, by simp [hg]⟩]
  · intro h1
    constructor
    · intro hb
      simp only [Contract.executeWill]
      rw [if_neg hex, if_neg (by simp [hne]),
          if_neg (not_not_intro (by omega)),
          if_neg (by intro hc; omega),
          if_neg (by intro hc; exact hc.2 (by simp [hb])),
          if_neg (by omega), if_neg (not_not_intro hshares)]
      exact ⟨_, rfl⟩
    · intro hb
      simp only [Contract.executeWill]
      rw [if_neg hex, if_neg (by simp [hne]),
          if_neg (not_not_intro (by omega)),
          if_neg (by intro hc; omega),
          if_pos ⟨by omega, by simp [hb]⟩]

/-- Witness for C2: for the concrete will `cw2` (deadline 100, dispute end
150) at time 120 with the guardian `3` as caller, the hypotheses hold and
the phased-authorization conclusion follows. -/
theorem C2_witness :
    Contract.cw2.testator ≠ 0 ∧ Contract.cw2.executed = false ∧
    0 < Contract.cw2.lockedVault + Contract.cw2.flexibleVault ∧
    Contract.getTotalShares Contract.cw2 = 100 ∧
    ((120 ≤ Contract.cw2.lastCheckIn + Contract.cw2.checkInPeriod →
      Contract.executeWill 3 120 Contract.cw2 = .error .PhaseNotElapsed) ∧
     (Contract.cw2.lastCheckIn + Contract.cw2.checkInPeriod < 120 →
      120 ≤ Contract.cw2.lastCheckIn + Contract.cw2.checkInPeriod
          + Contract.cw2.disputePeriod →
       (Contract.isGuardianOfWill 3 Contract.cw2 = true →
         ∃ r, Contract.executeWill 3 120 Contract.cw2 = .ok r) ∧
       (Contract.isGuardianOfWill 3 Contract.cw2 = false →
         Contract.executeWill 3 120 Contract.cw2 = .error .Unauthorized)) ∧
     (Contract.cw2.lastCheckIn + Contract.cw2.checkInPeriod
         + Contract.cw2.disputePeriod < 120 →
       (Contract.isBeneficiaryOfWill 3 Contract.cw2 = true →
         ∃ r, Contract.executeWill 3 120 Contract.cw2 = .ok r) ∧
       (Contract.isBeneficiaryOfWill 3 Contract.cw2 = false →
         Contract.executeWill 3 120 Contract.cw2 = .error .Unauthorized))) :=
  ⟨by decide, by decide, by decide, by decide,
   C2_executeWill_phased_authorization 3 120 Contract.cw2
     (by decide) (by decide) (by decide) (by decide)⟩

/-- C4: on a successful `executeWill`, the payout list gives each
beneficiary exactly `floor(totalFunds * share / 100)` where `totalFunds`
is the sum of the two vaults at execution time, and both vaults are zeroed
with the will marked executed. -/
theorem C4_distribution_amounts (caller time : Nat) (w w2 : Contract.Will)
    (ps : List (Nat × Nat))
    (hr : Contract.executeWill caller time w = .ok (w2, ps)) :
    ps = w.beneficiaries.map (fun b =>
      (b.wallet, (w.lockedVault + w.flexibleVault) * b.share / 100)) ∧
    w2.lockedVault = 0 ∧ w2.flexibleVault = 0 ∧ w2.executed = true := by
  obtain ⟨_, _, _, _, _, _, _, hps, hw⟩ :=
    Contract.executeWill_ok caller time w w2 ps hr
  subst hw
  exact ⟨hps, rfl, rfl, rfl⟩

/-- Witness for C4: the specification's end-to-end scenario.  The will
holds 10 locked and 5 flexible units with shares 60 (beneficiary `2`) and
40 (guardian `3`); execution by `2` after the dispute end (deadline
2592000, dispute end 3196800) pays 9 to `2` and 6 to `3` and zeroes both
vaults. -/
theorem C4_witness :
    Contract.executeWill 2 3196801 Contract.scenWill =
      .ok ({ testator := 1,
             beneficiaries := [⟨2, 60, false⟩, ⟨3, 40, true⟩],
             lockedVault := 0, flexibleVault := 0, lastCheckIn := 0,
             checkInPeriod := 2592000, disputePeriod := 604800,
             executed := true }, [(2, 9), (3, 6)]) ∧
    [(2, 9), (3, 6)] = Contract.scenWill.beneficiaries.map (fun b =>
      (b.wallet, (Contract.scenWill.lockedVault
        + Contract.scenWill.flexibleVault) * b.share / 100)) :=
  ⟨rfl,
   (C4_distribution_amounts 2 3196801 Contract.scenWill
     { testator := 1, beneficiaries := [⟨2, 60, false⟩, ⟨3, 40, true⟩],
       lockedVault := 0, flexibleVault := 0, lastCheckIn := 0,
       checkInPeriod := 2592000, disputePeriod := 604800, executed := true }
     [(2, 9), (3, 6)] rfl).1⟩

/-- C5: Executed is terminal.  After a successful `executeWill`, both
vaults are 0 and `executed` is true, every subsequent deposit, withdraw,
beneficiary operation and check-in fails with `WillExecuted`, and no
operation at all changes the will's state again. -/
theorem C5_executed_terminal (owner caller time : Nat) (w0 w : Contract.Will)
    (ps : List (Nat × Nat))
    (hr : Contract.executeWill caller time w0 = .ok (w, ps)) :
    w.lockedVault = 0 ∧ w.flexibleVault = 0 ∧ w.executed = true ∧
    (∀ a, Contract.depositLocked a w = .error .WillExecuted) ∧
    (∀ a, Contract.depositFlexible a w = .error .WillExecuted) ∧
    (∀ a, Contract.withdrawFlexible a w = .error .WillExecuted) ∧
    (∀ b s g, Contract.addBeneficiary owner b s g w = .error .WillExecuted) ∧
    (∀ b s g, Contract.updateBeneficiary b s g w = .error .WillExecuted) ∧
    (∀ b, Contract.removeBeneficiary b w = .error .WillExecuted) ∧
    (∀ t, Contract.checkIn t w = .error .WillExecuted) ∧
    (∀ op, Contract.stepOp owner op w = w) := by
  obtain ⟨hex, _, _, _, _, _, _, _, hw⟩ :=
    Contract.executeWill_ok caller time w0 w ps hr
  have hex2 : w.testator ≠ 0 := by rw [hw]; exact hex
  have hexec : w.executed = true := by rw [hw]
  refine ⟨by rw [hw], by rw [hw], hexec, ?_, ?_, ?_, ?_, ?_, ?_, ?_, ?_⟩
  · intro a; simp [Contract.depositLocked, hex2, hexec]
  · intro a; simp [Contract.depositFlexible, hex2, hexec]
  · intro a; simp [Contract.withdrawFlexible, hex2, hexec]
  · intro b s g; simp [Contract.addBeneficiary, hex2, hexec]
  · intro b s g; simp [Contract.updateBeneficiary, hex2, hexec]
  · intro b; simp [Contract.removeBeneficiary, hex2, hexec]
  · intro t; simp [Contract.checkIn, hex2, hexec]
  · intro op
    obtain ⟨e, he⟩ := Contract.applyOp_executed owner op w hex2 hexec
    exact Contract.stepOp_of_error owner op w e he

/-- Witness for C5: executing `cw2` (guardian `3`, time 120) yields the
executed state `cw2ex`, on which the terminality conclusion holds. -/
theorem C5_witness :
    Contract.executeWill 3 120 Contract.cw2 =
      .ok (Contract.cw2ex, [(2, 9), (3, 6)]) ∧
    (Contract.cw2ex.lockedVault = 0 ∧ Contract.cw2ex.flexibleVault = 0 ∧
     Contract.cw2ex.executed = true ∧
     (∀ a, Contract.depositLocked a Contract.cw2ex = .error .WillExecuted) ∧
     (∀ a, Contract.depositFlexible a Contract.cw2ex = .error .WillExecuted) ∧
     (∀ a, Contract.withdrawFlexible a Contract.cw2ex = .error .WillExecuted) ∧
     (∀ b s g, Contract.addBeneficiary 1 b s g Contract.cw2ex
        = .error .WillExecuted) ∧
     (∀ b s g, Contract.updateBeneficiary b s g Contract.cw2ex
        = .error .WillExecuted) ∧
     (∀ b, Contract.removeBeneficiary b Contract.cw2ex
        = .error .WillExecuted) ∧
     (∀ t, Contract.checkIn t Contract.cw2ex = .error .WillExecuted) ∧
     (∀ op, Contract.stepOp 1 op Contract.cw2ex = Contract.cw2ex)) :=
  ⟨rfl,
   C5_executed_terminal 1 3 120 Contract.cw2 Contract.cw2ex [(2, 9), (3, 6)]
     rfl⟩

/-- C6: Share-sum invariant with atomic failure.  Every state reachable
from a fresh will keeps the share sum at most 100; an `addBeneficiary`
whose share would push the total over 100 (all earlier checks passing)
fails with `ShareOverflow` and leaves the will unchanged, and likewise an
`updateBeneficiary` whose adjusted total would exceed 100. -/
theorem C6_share_sum_invariant :
    (∀ (owner : Nat) (ops : List Contract.Op),
      Contract.getTotalShares (Contract.runOps owner ops Contract.emptyWill)
        ≤ 100) ∧
    (∀ (owner ben share : Nat) (isG : Bool) (w : Contract.Will),
      w.testator ≠ 0 → w.executed = false → 0 < share → share ≤ 100 →
      ben ≠ 0 → ben ≠ owner → Contract.isBeneficiaryOfWill ben w = false →
      (isG = true → Contract.hasGuardian w = false) →
      100 < Contract.getTotalShares w + share →
      Contract.addBeneficiary owner ben share isG w = .error .ShareOverflow ∧
        Contract.stepOp owner (.addBeneficiary ben share isG) w = w) ∧
    (∀ (owner ben newShare : Nat) (isG : Bool) (w : Contract.Will),
      w.testator ≠ 0 → w.executed = false → 0 < newShare → newShare ≤ 100 →
      Contract.isBeneficiaryOfWill ben w = true →
      (isG = true →
        (w.beneficiaries.getD (Contract.getBeneficiaryIndex ben w)
            ⟨0, 0, false⟩).isGuardian = true ∨
          Contract.hasGuardian w = false) →
      100 < Contract.getTotalShares w
        - (w.beneficiaries.getD (Contract.getBeneficiaryIndex ben w)
            ⟨0, 0, false⟩).share + newShare →
      Contract.updateBeneficiary ben newShare isG w = .error .ShareOverflow ∧
        Contract.stepOp owner (.updateBeneficiary ben newShare isG) w = w) := by
  refine ⟨?_, ?_, ?_⟩
  · intro owner ops
    exact (Contract.runOps_invariants owner ops Contract.emptyWill
      (by decide) (by decide)).1
  · intro owner ben share isG w h1 h2 h3 h4 h5 h6 h7 h8 h9
    have he := Contract.addBeneficiary_shareOverflow owner ben share isG w
      h1 h2 h3 h4 h5 h6 h7 h8 h9
    exact ⟨he, Contract.stepOp_of_error owner _ w .ShareOverflow
      (by simp [Contract.applyOp, he])⟩
  · intro owner ben newShare isG w h1 h2 h3 h4 h5 h6 h7
    have he := Contract.updateBeneficiary_shareOverflow ben newShare isG w
      h1 h2 h3 h4 h5 h6 h7
    exact ⟨he, Contract.stepOp_of_error owner _ w .ShareOverflow
      (by simp [Contract.applyOp, he])⟩

/-- Witness for C6: the scenario state stays within 100; on `cw2` (total
shares 100) adding beneficiary `4` with share 1 overflows, and raising
beneficiary `2` from 60 to 100 overflows; both leave `cw2` unchanged. -/
theorem C6_witness :
    Contract.getTotalShares
      (Contract.runOps 1 Contract.scenOps Contract.emptyWill) ≤ 100 ∧
    (Contract.addBeneficiary 1 4 1 false Contract.cw2
        = .error .ShareOverflow ∧
      Contract.stepOp 1 (.addBeneficiary 4 1 false) Contract.cw2
        = Contract.cw2) ∧
    (Contract.updateBeneficiary 2 100 false Contract.cw2
        = .error .ShareOverflow ∧
      Contract.stepOp 1 (.updateBeneficiary 2 100 false) Contract.cw2
        = Contract.cw2) :=
  ⟨C6_share_sum_invariant.1 1 Contract.scenOps,
   C6_share_sum_invariant.2.1 1 4 1 false Contract.cw2 (by decide) (by decide)
     (by decide) (by decide) (by decide) (by decide) (by decide) (by decide)
     (by decide),
   C6_share_sum_invariant.2.2 1 2 100 false Contract.cw2 (by decide)
     (by decide) (by decide) (by decide) (by decide) (by decide) (by decide)⟩

/-- C8: Guardian uniqueness.  Every reachable state has at most one entry
with the guardian flag; adding a guardian when one exists fails with
`GuardianConflict`, and promoting a non-guardian entry while a guardian
exists fails with `GuardianConflict`. -/
theorem C8_guardian_uniqueness :
    (∀ (owner : Nat) (ops : List Contract.Op),
      Contract.guardianCount (Contract.runOps owner ops Contract.emptyWill)
        ≤ 1) ∧
    (∀ (owner ben share : Nat) (w : Contract.Will),
      w.testator ≠ 0 → w.executed = false → 0 < share → share ≤ 100 →
      ben ≠ 0 → ben ≠ owner → Contract.isBeneficiaryOfWill ben w = false →
      Contract.hasGuardian w = true →
      Contract.addBeneficiary owner ben share true w
        = .error .GuardianConflict) ∧
    (∀ (ben newShare : Nat) (w : Contract.Will),
      w.testator ≠ 0 → w.executed = false → 0 < newShare → newShare ≤ 100 →
      Contract.isBeneficiaryOfWill ben w = true →
      (w.beneficiaries.getD (Contract.getBeneficiaryIndex ben w)
          ⟨0, 0, false⟩).isGuardian = false →
      Contract.hasGuardian w = true →
      Contract.updateBeneficiary ben newShare true w
        = .error .GuardianConflict) := by
  refine ⟨?_, ?_, ?_⟩
  · intro owner ops
    exact (Contract.runOps_invariants owner ops Contract.emptyWill
      (by decide) (by decide)).2
  · intro owner ben share w h1 h2 h3 h4 h5 h6 h7 h8
    exact Contract.addBeneficiary_guardianConflict owner ben share w
      h1 h2 h3 h4 h5 h6 h7 h8
  · intro ben newShare w h1 h2 h3 h4 h5 h6 h7
    exact Contract.updateBeneficiary_guardianConflict ben newShare w
      h1 h2 h3 h4 h5 h6 h7

/-- Witness for C8: on `cw2` (guardian `3` present) adding beneficiary `4`
as guardian conflicts, and promoting beneficiary `2` conflicts. -/
theorem C8_witness :
    Contract.guardianCount
      (Contract.runOps 1 Contract.scenOps Contract.emptyWill) ≤ 1 ∧
    Contract.addBeneficiary 1 4 1 true Contract.cw2
      = .error .GuardianConflict ∧
    Contract.updateBeneficiary 2 60 true Contract.cw2
      = .error .GuardianConflict :=
  ⟨C8_guardian_uniqueness.1 1 Contract.scenOps,
   C8_guardian_uniqueness.2.1 1 4 1 Contract.cw2 (by decide) (by decide)
     (by decide) (by decide) (by decide) (by decide) (by decide) (by decide),
   C8_guardian_uniqueness.2.2 2 60 Contract.cw2 (by decide) (by decide)
     (by decide) (by decide) (by decide) (by decide) (by decide)⟩

/-- C7: Locked-vault trust guarantee.  A withdrawal exceeding the flexible
balance fails with `InsufficientBalance`; a successful withdrawal only
decrements the flexible balance; no operation other than `executeWill`
ever decreases the locked balance; and a successful execution zeroes both
vaults. -/
theorem C7_locked_vault_trust :
    (∀ (a : Nat) (w : Contract.Will), w.testator ≠ 0 → w.executed = false →
      w.flexibleVault < a →
      Contract.withdrawFlexible a w = .error .InsufficientBalance) ∧
    (∀ (a : Nat) (w w2 : Contract.Will),
      Contract.withdrawFlexible a w = .ok w2 →
      w2 = { w with flexibleVault := w.flexibleVault - a }) ∧
    (∀ (owner : Nat) (op : Contract.Op) (w : Contract.Will),
      (∀ c t, op ≠ .executeWill c t) →
      w.lockedVault ≤ (Contract.stepOp owner op w).lockedVault) ∧
    (∀ (caller time : Nat) (w w2 : Contract.Will) (ps : List (Nat × Nat)),
      Contract.executeWill caller time w = .ok (w2, ps) →
      w2.lockedVault = 0 ∧ w2.flexibleVault = 0) := by
  refine ⟨?_, ?_, ?_, ?_⟩
  · intro a w h1 h2 h3
    simp only [Contract.withdrawFlexible]
    rw [if_neg h1, if_neg (by simp [h2]), if_neg (by omega),
        if_pos (by omega)]
  · intro a w w2 hr
    exact (Contract.withdrawFlexible_ok a w w2 hr).2.2.2.2
  · intro owner op w hne
    cases op with
    | createWill time cp dp =>
      cases hr : Contract.applyOp owner (.createWill time cp dp) w with
      | error e => simp [Contract.stepOp, hr]
      | ok w2 =>
        have hstep : Contract.stepOp owner (.createWill time cp dp) w = w2 := by
          simp [Contract.stepOp, hr]
        simp only [Contract.applyOp] at hr
        obtain ⟨_, _, _, hw⟩ := Contract.createWill_ok owner time cp dp w w2 hr
        simp [hstep, hw]
    | checkIn time =>
      cases hr : Contract.applyOp owner (.checkIn time) w with
      | error e => simp [Contract.stepOp, hr]
      | ok w2 =>
        have hstep : Contract.stepOp owner (.checkIn time) w = w2 := by
          simp [Contract.stepOp, hr]
        simp only [Contract.applyOp] at hr
        obtain ⟨_, _, hw⟩ := Contract.checkIn_ok time w w2 hr
        simp [hstep, hw]
    | addBeneficiary ben share isG =>
      cases hr : Contract.applyOp owner (.addBeneficiary ben share isG) w with
      | error e => simp [Contract.stepOp, hr]
      | ok w2 =>
        have hstep : Contract.stepOp owner (.addBeneficiary ben share isG) w
            = w2 := by
          simp [Contract.stepOp, hr]
        simp only [Contract.applyOp] at hr
        obtain ⟨_, _, _, _, _, _, _, _, _, hw⟩ :=
          Contract.addBeneficiary_ok owner ben share isG w w2 hr
        simp [hstep, hw]
    | updateBeneficiary ben newShare isG =>
      cases hr : Contract.applyOp owner (.updateBeneficiary ben newShare isG) w with
      | error e => simp [Contract.stepOp, hr]
      | ok w2 =>
        have hstep : Contract.stepOp owner
            (.updateBeneficiary ben newShare isG) w = w2 := by
          simp [Contract.stepOp, hr]
        simp only [Contract.applyOp] at hr
        obtain ⟨_, _, _, _, _, _, _, hw⟩ :=
          Contract.updateBeneficiary_ok ben newShare isG w w2 hr
        simp [hstep, hw]
    | removeBeneficiary ben =>
      cases hr : Contract.applyOp owner (.removeBeneficiary ben) w with
      | error e => simp [Contract.stepOp, hr]
      | ok w2 =>
        have hstep : Contract.stepOp owner (.removeBeneficiary ben) w = w2 := by
          simp [Contract.stepOp, hr]
        simp only [Contract.applyOp] at hr
        obtain ⟨_, _, _, hw⟩ := Contract.removeBeneficiary_ok ben w w2 hr
        simp [hstep, hw]
    | depositLocked amount =>
      cases hr : Contract.applyOp owner (.depositLocked amount) w with
      | error e => simp [Contract.stepOp, hr]
      | ok w2 =>
        have hstep : Contract.stepOp owner (.depositLocked amount) w = w2 := by
          simp [Contract.stepOp, hr]
        simp only [Contract.applyOp] at hr
        obtain ⟨_, _, _, hw⟩ := Contract.depositLocked_ok amount w w2 hr
        simp [hstep, hw]
    | depositFlexible amount =>
      cases hr : Contract.applyOp owner (.depositFlexible amount) w with
      | error e => simp [Contract.stepOp, hr]
      | ok w2 =>
        have hstep : Contract.stepOp owner (.depositFlexible amount) w = w2 := by
          simp [Contract.stepOp, hr]
        simp only [Contract.applyOp] at hr
        obtain ⟨_, _, _, hw⟩ := Contract.depositFlexible_ok amount w w2 hr
        simp [hstep, hw]
    | withdrawFlexible amount =>
      cases hr : Contract.applyOp owner (.withdrawFlexible amount) w with
      | error e => simp [Contract.stepOp, hr]
      | ok w2 =>
        have hstep : Contract.stepOp owner (.withdrawFlexible amount) w = w2 := by
          simp [Contract.stepOp, hr]
        simp only [Contract.applyOp] at hr
        obtain ⟨_, _, _, _, hw⟩ := Contract.withdrawFlexible_ok amount w w2 hr
        simp [hstep, hw]
    | executeWill caller time =>
      exact absurd rfl (hne caller time)
  · intro caller time w w2 ps hr
    obtain ⟨_, _, _, _, _, _, _, _, hw⟩ :=
      Contract.executeWill_ok caller time w w2 ps hr
    rw [hw]
    exact ⟨rfl, rfl⟩

/-- Witness for C7: on `cw2` (flexible balance 5) withdrawing 6 fails with
`InsufficientBalance`; withdrawing 5 yields exactly the flexible-vault
decrement; `depositLocked 7` does not decrease the locked balance; and the
execution of `cw2` zeroes both vaults. -/
theorem C7_witness :
    Contract.withdrawFlexible 6 Contract.cw2
      = .error .InsufficientBalance ∧
    ({ testator := 1, beneficiaries := [⟨2, 60, false⟩, ⟨3, 40, true⟩],
       lockedVault := 10, flexibleVault := 0, lastCheckIn := 0,
       checkInPeriod := 100, disputePeriod := 50,
       executed := false } : Contract.Will)
      = { Contract.cw2 with
          flexibleVault := Contract.cw2.flexibleVault - 5 } ∧
    Contract.cw2.lockedVault
      ≤ (Contract.stepOp 1 (.depositLocked 7) Contract.cw2).lockedVault ∧
    (Contract.cw2ex.lockedVault = 0 ∧ Contract.cw2ex.flexibleVault = 0) :=
  ⟨C7_locked_vault_trust.1 6 Contract.cw2 (by decide) (by decide) (by decide),
   C7_locked_vault_trust.2.1 5 Contract.cw2
     { testator := 1, beneficiaries := [⟨2, 60, false⟩, ⟨3, 40, true⟩],
       lockedVault := 10, flexibleVault := 0, lastCheckIn := 0,
       checkInPeriod := 100, disputePeriod := 50, executed := false } rfl,
   C7_locked_vault_trust.2.2.1 1 (.depositLocked 7) Contract.cw2
     (by intro c t; simp),
   C7_locked_vault_trust.2.2.2 3 120 Contract.cw2 Contract.cw2ex
     [(2, 9), (3, 6)] rfl⟩

/-! ## Projection helper lemmas -/

namespace Projection

theorem find_upsertVault (wid vt : String) (bal : Int) :
    ∀ vs : List VaultRow,
      (upsertVault ⟨wid, vt, bal⟩ vs).find?
          (fun v => v.willId = wid ∧ v.vaultType = vt)
        = some ⟨wid, vt, bal⟩ := by
  intro vs
  induction vs with
  | nil => simp [upsertVault, List.find?]
  | cons x xs ih =>
    by_cases hx : x.willId = wid ∧ x.vaultType = vt
    · simp [upsertVault, hx, List.find?]
    · simp only [upsertVault]
      rw [if_neg hx]
      simp only [List.find?]
      have hd : decide (x.willId = wid ∧ x.vaultType = vt) = false := by
        simpa using hx
      rw [hd]
      exact ih

end Projection



namespace Projection

theorem upsertWill_idem (r : WillRow) :
    ∀ l, upsertWill r (upsertWill r l) = upsertWill r l := by
  intro l
  induction l with
  | nil => simp [upsertWill]
  | cons x xs ih =>
    by_cases hx : x.willId = r.willId
    · simp [upsertWill, hx]
    · simp [upsertWill, hx, ih]

theorem upsertBen_idem (r : BenRow) :
    ∀ l, upsertBen r (upsertBen r l) = upsertBen r l := by
  intro l
  induction l with
  | nil => simp [upsertBen]
  | cons x xs ih =>
    by_cases hx : x.willId = r.willId ∧ x.beneficiary = r.beneficiary
    · simp [upsertBen, hx]
    · simp [upsertBen, hx, ih]

theorem map_idem {α : Type} (f : α → α) (l : List α)
    (hf : ∀ x, f (f x) = f x) : (l.map f).map f = l.map f := by
  rw [List.map_map]
  exact List.map_congr_left (fun x _ => hf x)

theorem filter_idem {α : Type} (p : α → Bool) (l : List α) :
    (l.filter p).filter p = l.filter p := by
  induction l with
  | nil => simp
  | cons x xs ih =>
    by_cases hx : p x = true
    · simp [List.filter_cons, hx, ih]
    · simp [List.filter_cons, hx, ih]

theorem any_map_willId (f : WillRow → WillRow)
    (hf : ∀ w, (f w).willId = w.willId) (l : List WillRow) (wid : String) :
    (l.map f).any (fun w => w.willId = wid)
      = l.any (fun w => w.willId = wid) := by
  induction l with
  | nil => rfl
  | cons x xs ih => simp [List.any_cons, hf, ih]

theorem willRowExists_dbUpdateGuardian (wid2 g : String) (now : Nat)
    (db : DB) (wid : String) :
    willRowExists (dbUpdateGuardian wid2 g now db) wid
      = willRowExists db wid := by
  simp only [dbUpdateGuardian, willRowExists]
  exact any_map_willId _ (fun w => by
    by_cases hx : w.willId = wid2 <;> simp [hx]) db.wills wid

theorem dbAddBeneficiary_false_of_exists (testator ben : String) (s2 : Nat)
    (now : Nat) (db : DB)
    (h : willRowExists db (lowerStr testator) = true) :
    dbAddBeneficiary testator ben s2 false now db
      = { db with bens := upsertBen ⟨lowerStr testator, lowerStr ben, s2⟩ db.bens } := by
  simp only [dbAddBeneficiary]
  rw [if_pos h]
  rfl

theorem dbAddBeneficiary_true_of_exists (testator ben : String) (s2 : Nat)
    (now : Nat) (db : DB)
    (h : willRowExists db (lowerStr testator) = true) :
    dbAddBeneficiary testator ben s2 true now db
      = dbUpdateGuardian (lowerStr testator) ben now
          { db with bens := upsertBen ⟨lowerStr testator, lowerStr ben, s2⟩ db.bens } := by
  simp only [dbAddBeneficiary]
  rw [if_pos h]
  rfl

theorem dbAddBeneficiary_of_no_will (testator ben : String) (s2 : Nat)
    (isG : Bool) (now : Nat) (db : DB)
    (h : ¬willRowExists db (lowerStr testator) = true) :
    dbAddBeneficiary testator ben s2 isG now db = db := by
  simp only [dbAddBeneficiary]
  rw [if_neg h]

theorem dbUpdateVaultBalance_of_no_will (testator vt : String)
    (amount : Nat) (isDep : Bool) (db : DB)
    (h : ¬willRowExists db (lowerStr testator) = true) :
    dbUpdateVaultBalance testator vt amount isDep db = db := by
  simp only [dbUpdateVaultBalance]
  rw [if_neg h]

theorem vaultBalance_zero_of_no_will (db : DB) (t vt : String)
    (hfk : fkConsistentVaults db = true)
    (hex : ¬willRowExists db (lowerStr t) = true) :
    vaultBalance db t vt = 0 := by
  simp only [fkConsistentVaults] at hfk
  simp only [vaultBalance]
  cases hf : db.vaults.find? (fun v =>
      v.willId = lowerStr t ∧ v.vaultType = vt) with
  | none => rfl
  | some v =>
    exfalso
    have hmem := List.mem_of_find?_eq_some hf
    have hp := List.find?_some hf
    have hp2 := of_decide_eq_true hp
    have hall := List.all_eq_true.mp hfk v hmem
    rw [hp2.1] at hall
    exact hex hall

theorem insVault_any_self (wid vt : String) (vs : List VaultRow) :
    (insVaultIfAbsent wid vt vs).any
      (fun v => v.willId = wid ∧ v.vaultType = vt) = true := by
  by_cases h : vs.any (fun v => decide (v.willId = wid ∧ v.vaultType = vt))
      = true
  · simp only [insVaultIfAbsent]
    rw [if_pos h]
    exact h
  · simp only [insVaultIfAbsent]
    rw [if_neg h]
    rw [List.any_append]
    simp

theorem insVault_any_mono (wid vt : String) (p : VaultRow → Bool)
    (vs : List VaultRow) (h : vs.any p = true) :
    (insVaultIfAbsent wid vt vs).any p = true := by
  simp only [insVaultIfAbsent]
  split
  · exact h
  · rw [List.any_append, h, Bool.true_or]

theorem insVault_noop (wid vt : String) (vs : List VaultRow)
    (h : vs.any (fun v => v.willId = wid ∧ v.vaultType = vt) = true) :
    insVaultIfAbsent wid vt vs = vs := by
  simp only [insVaultIfAbsent]
  rw [if_pos h]

theorem initVaults_pair_idem (wid : String) (vs : List VaultRow) :
    insVaultIfAbsent wid "flexible" (insVaultIfAbsent wid "locked"
      (insVaultIfAbsent wid "flexible" (insVaultIfAbsent wid "locked" vs)))
    = insVaultIfAbsent wid "flexible" (insVaultIfAbsent wid "locked" vs) := by
  have h1 := insVault_any_self wid "locked" vs
  have h2 := insVault_any_mono wid "flexible" _ _ h1
  rw [insVault_noop wid "locked" _ h2]
  exact insVault_noop wid "flexible" _
    (insVault_any_self wid "flexible" (insVaultIfAbsent wid "locked" vs))

/-- Re-applying a non-vault event immediately is a no-op on the replica. -/
theorem applyEvent_nonvault_idem (now : Nat) (e : Event) (db : DB)
    (h : isVaultEvent e = false) :
    applyEvent now e (applyEvent now e db) = applyEvent now e db := by
  cases e with
  | WillCreated t cp dp =>
    simp only [applyEvent, dbCreateWill, initializeVaults]
    congr 1
    · exact upsertWill_idem _ _
    · exact initVaults_pair_idem _ _
  | CheckIn t ts =>
    simp only [applyEvent, dbUpdateLastCheckIn]
    congr 1
    rw [map_idem]
    intro x
    by_cases hx : x.testator = lowerStr t <;> simp [hx]
  | WillExecuted t =>
    simp only [applyEvent, dbExecuteWill]
    congr 1
    rw [map_idem]
    intro x
    by_cases hx : x.testator = lowerStr t <;> simp [hx]
  | BeneficiaryAdded t b s g =>
    show dbAddBeneficiary t b s g now (dbAddBeneficiary t b s g now db)
      = dbAddBeneficiary t b s g now db
    cases g with
    | false =>
      by_cases hex : willRowExists db (lowerStr t) = true
      · have he1 := dbAddBeneficiary_false_of_exists t b s now db hex
        have hex2 : willRowExists
            { db with bens := upsertBen ⟨lowerStr t, lowerStr b, s⟩ db.bens }
            (lowerStr t) = true := hex
        have he2 := dbAddBeneficiary_false_of_exists t b s now
          { db with bens := upsertBen ⟨lowerStr t, lowerStr b, s⟩ db.bens }
          hex2
        rw [he1, he2]
        congr 1
        exact upsertBen_idem _ _
      · rw [dbAddBeneficiary_of_no_will t b s false now db hex,
            dbAddBeneficiary_of_no_will t b s false now db hex]
    | true =>
      by_cases hex : willRowExists db (lowerStr t) = true
      · have he1 := dbAddBeneficiary_true_of_exists t b s now db hex
        have hex2 : willRowExists
            (dbUpdateGuardian (lowerStr t) b now
              { db with bens := upsertBen ⟨lowerStr t, lowerStr b, s⟩ db.bens })
            (lowerStr t) = true := by
          rw [willRowExists_dbUpdateGuardian]
          exact hex
        have he2 := dbAddBeneficiary_true_of_exists t b s now
          (dbUpdateGuardian (lowerStr t) b now
            { db with bens := upsertBen ⟨lowerStr t, lowerStr b, s⟩ db.bens })
          hex2
        rw [he1, he2]
        simp only [dbUpdateGuardian]
        congr 1
        · exact map_idem _ _ (fun x => by
            by_cases hx : x.willId = lowerStr t <;> simp [hx])
        · exact upsertBen_idem _ _
      · rw [dbAddBeneficiary_of_no_will t b s true now db hex,
            dbAddBeneficiary_of_no_will t b s true now db hex]
  | BeneficiaryRemoved t b =>
    simp only [applyEvent, dbRemoveBeneficiary]
    congr 1
    · rw [map_idem]
      intro x
      by_cases hx : x.willId = lowerStr t ∧ x.guardian = some (lowerStr b)
      · simp [hx]
      · simp [hx]
    · exact filter_idem _ _
  | BeneficiaryUpdated t b s g =>
    cases g with
    | false =>
      simp only [applyEvent, dbUpdateBeneficiary, Bool.false_eq_true,
        if_false]
      congr 1
      rw [map_idem]
      intro x
      by_cases hx : x.willId = lowerStr t ∧ x.beneficiary = lowerStr b <;>
        simp [hx]
    | true =>
      simp only [applyEvent, dbUpdateBeneficiary, dbUpdateGuardian, if_true]
      congr 1
      · rw [map_idem]
        intro x
        by_cases hx : x.willId = lowerStr t <;> simp [hx]
      · rw [map_idem]
        intro x
        by_cases hx : x.willId = lowerStr t ∧ x.beneficiary = lowerStr b <;>
          simp [hx]
  | DepositLocked t a => simp [isVaultEvent] at h
  | DepositFlexible t a => simp [isVaultEvent] at h
  | WithdrawFlexible t a => simp [isVaultEvent] at h
  | DisputeStarted t => rfl

/-- The balance stored by `updateVaultBalance` at the written key, when
the parent `Wills` row exists (so the insert succeeds). -/
theorem updateVaultBalance_balance (db : DB) (t vt2 : String) (a : Nat)
    (isDep : Bool) (hex : willRowExists db (lowerStr t) = true) :
    vaultBalance (dbUpdateVaultBalance t vt2 a isDep db) t vt2
      = (if (if isDep then vaultBalance db t vt2 + a
             else vaultBalance db t vt2 - a) < 0 then 0
         else if isDep then vaultBalance db t vt2 + a
              else vaultBalance db t vt2 - a) := by
  simp only [dbUpdateVaultBalance]
  rw [if_pos hex]
  simp only [vaultBalance]
  rw [find_upsertVault]

/-- Applying a `DepositLocked` event for a will present in the replica
adds the amount to a non-negative stored balance. -/
theorem depositLocked_balance (db : DB) (now : Nat) (t : String) (a : Nat)
    (hex : willRowExists db (lowerStr t) = true)
    (h : 0 ≤ vaultBalance db t "locked") :
    vaultBalance (applyEvent now (.DepositLocked t a) db) t "locked"
      = vaultBalance db t "locked" + a := by
  have hb := updateVaultBalance_balance db t "locked" a true hex
  simp only [applyEvent]
  rw [hb]
  show (if vaultBalance db t "locked" + (a : Int) < 0 then (0 : Int)
        else vaultBalance db t "locked" + a)
      = vaultBalance db t "locked" + a
  rw [if_neg (by omega)]

end Projection

/-- C10: the projection never stores a negative vault balance on a
withdrawal: on any replica satisfying the foreign-key invariant that
SQLite enforces on the `Vaults` table, applying a `WithdrawFlexible`
event stores exactly the previous flexible balance minus the amount,
clamped at zero, and the event is absorbed without failing, so the stored
balance is never negative.  (When the will row is absent the insert
throws and the event is skipped: the balance reads 0 before and after,
which is again the clamped value.) -/
theorem C10_withdraw_clamped (db : Projection.DB) (now : Nat) (t : String)
    (a : Nat) (hfk : Projection.fkConsistentVaults db = true) :
    Projection.vaultBalance
        (Projection.applyEvent now (.WithdrawFlexible t a) db) t "flexible"
      = max 0 (Projection.vaultBalance db t "flexible" - a) ∧
    0 ≤ Projection.vaultBalance
        (Projection.applyEvent now (.WithdrawFlexible t a) db) t "flexible" := by
  by_cases hex : Projection.willRowExists db (Projection.lowerStr t) = true
  · have hmain : Projection.vaultBalance
        (Projection.applyEvent now (.WithdrawFlexible t a) db) t "flexible"
          = max 0 (Projection.vaultBalance db t "flexible" - a) := by
      have hb := Projection.updateVaultBalance_balance db t "flexible" a
        false hex
      simp only [Projection.applyEvent]
      rw [hb]
      show (if Projection.vaultBalance db t "flexible" - (a : Int) < 0
            then (0 : Int)
            else Projection.vaultBalance db t "flexible" - a)
          = max 0 (Projection.vaultBalance db t "flexible" - a)
      by_cases hx : Projection.vaultBalance db t "flexible" - (a : Int) < 0
      · rw [if_pos hx]
        exact (max_eq_left (by omega)).symm
      · rw [if_neg hx]
        exact (max_eq_right (by omega)).symm
    exact ⟨hmain, by rw [hmain]; exact le_max_left 0 _⟩
  · have happ : Projection.applyEvent now (.WithdrawFlexible t a) db = db := by
      simp only [Projection.applyEvent]
      exact Projection.dbUpdateVaultBalance_of_no_will t "flexible" a false
        db hex
    have h0 : Projection.vaultBalance db t "flexible" = 0 :=
      Projection.vaultBalance_zero_of_no_will db t "flexible" hfk hex
    constructor
    · rw [happ, h0]
      exact (max_eq_left (by omega)).symm
    · rw [happ, h0]

/-- Witness for C10: on the replica built by creating a will for `0xA`
and depositing 5 flexible, withdrawing 7 clamps the stored balance to
`max 0 (5 - 7) = 0`. -/
theorem C10_witness :
    Projection.fkConsistentVaults (Projection.applyEvents
        [(0, .WillCreated "0xA" 3 4), (0, .DepositFlexible "0xA" 5)]
        Projection.emptyDB) = true ∧
    (Projection.vaultBalance
        (Projection.applyEvent 9 (.WithdrawFlexible "0xA" 7)
          (Projection.applyEvents
            [(0, .WillCreated "0xA" 3 4), (0, .DepositFlexible "0xA" 5)]
            Projection.emptyDB)) "0xA" "flexible"
      = max 0 (Projection.vaultBalance
          (Projection.applyEvents
            [(0, .WillCreated "0xA" 3 4), (0, .DepositFlexible "0xA" 5)]
            Projection.emptyDB) "0xA" "flexible" - 7) ∧
     0 ≤ Projection.vaultBalance
        (Projection.applyEvent 9 (.WithdrawFlexible "0xA" 7)
          (Projection.applyEvents
            [(0, .WillCreated "0xA" 3 4), (0, .DepositFlexible "0xA" 5)]
            Projection.emptyDB)) "0xA" "flexible") :=
  ⟨by decide,
   C10_withdraw_clamped (Projection.applyEvents
       [(0, .WillCreated "0xA" 3 4), (0, .DepositFlexible "0xA" 5)]
       Projection.emptyDB) 9 "0xA" 7 (by decide)⟩

/-- C1 counterexample: the projection is not idempotent on duplicated
vault events.  Applying the sequence `[WillCreated "0xA" 3 4,
DepositLocked "0xA" 5]` twice to a fresh replica stores locked balance 10
(the second `WillCreated` re-creation keeps the existing vault rows and
the second deposit accumulates), while applying it once stores 5, so the
replica contents differ.  (Both deposits run with their parent `Wills`
row present, so the foreign-key-checked inserts succeed.) -/
theorem C1_counterexample :
    Projection.applyEvents
        [(0, .WillCreated "0xA" 3 4), (0, .DepositLocked "0xA" 5),
         (0, .WillCreated "0xA" 3 4), (0, .DepositLocked "0xA" 5)]
        Projection.emptyDB
      ≠ Projection.applyEvents
          [(0, .WillCreated "0xA" 3 4), (0, .DepositLocked "0xA" 5)]
          Projection.emptyDB := by
  decide

/-- C1 (amended): vault-balance updates are applied as accumulated deltas,
not absolute amounts, so replay is idempotent only for non-vault events:
immediately re-applying any non-vault event leaves the replica unchanged,
while re-applying a `DepositLocked` of amount `a` for a will present in
the replica (so the foreign-key-checked insert succeeds, on a
non-negative stored balance) increases the stored balance by `a` again. -/
theorem C1_amended_replay (now : Nat) (e : Projection.Event)
    (db : Projection.DB) (t : String) (a : Nat) :
    (Projection.isVaultEvent e = false →
      Projection.applyEvent now e (Projection.applyEvent now e db)
        = Projection.applyEvent now e db) ∧
    (Projection.willRowExists db (Projection.lowerStr t) = true →
     0 ≤ Projection.vaultBalance db t "locked" →
      Projection.vaultBalance
          (Projection.applyEvent now (.DepositLocked t a)
            (Projection.applyEvent now (.DepositLocked t a) db)) t "locked"
        = Projection.vaultBalance
            (Projection.applyEvent now (.DepositLocked t a) db) t "locked"
          + a) := by
  constructor
  · exact Projection.applyEvent_nonvault_idem now e db
  · intro hexw h
    have h1 := Projection.depositLocked_balance db now t a hexw h
    have hex2 : Projection.willRowExists
        (Projection.applyEvent now (.DepositLocked t a) db)
        (Projection.lowerStr t) = true := by
      simp only [Projection.applyEvent, Projection.dbUpdateVaultBalance]
      rw [if_pos hexw]
      exact hexw
    exact Projection.depositLocked_balance
      (Projection.applyEvent now (.DepositLocked t a) db) now t a hex2
      (by rw [h1]; omega)

/-- Witness for C1 (amended): re-applying a `CheckIn` event to the fresh
replica is a no-op, and on the replica holding a will for `0xA`,
re-applying `DepositLocked "0xA" 5` adds 5 again. -/
theorem C1_witness :
    Projection.isVaultEvent (.CheckIn "0xA" 7) = false ∧
    Projection.applyEvent 0 (.CheckIn "0xA" 7)
        (Projection.applyEvent 0 (.CheckIn "0xA" 7) Projection.emptyDB)
      = Projection.applyEvent 0 (.CheckIn "0xA" 7) Projection.emptyDB ∧
    Projection.willRowExists
      (Projection.applyEvent 0 (.WillCreated "0xA" 3 4) Projection.emptyDB)
      (Projection.lowerStr "0xA") = true ∧
    (0 : Int) ≤ Projection.vaultBalance
      (Projection.applyEvent 0 (.WillCreated "0xA" 3 4) Projection.emptyDB)
      "0xA" "locked" ∧
    Projection.vaultBalance
        (Projection.applyEvent 0 (.DepositLocked "0xA" 5)
          (Projection.applyEvent 0 (.DepositLocked "0xA" 5)
            (Projection.applyEvent 0 (.WillCreated "0xA" 3 4)
              Projection.emptyDB))) "0xA" "locked"
      = Projection.vaultBalance
          (Projection.applyEvent 0 (.DepositLocked "0xA" 5)
            (Projection.applyEvent 0 (.WillCreated "0xA" 3 4)
              Projection.emptyDB)) "0xA" "locked" + 5 :=
  ⟨by decide,
   (C1_amended_replay 0 (.CheckIn "0xA" 7) Projection.emptyDB "0xA" 5).1
     (by decide),
   by decide,
   by decide,
   (C1_amended_replay 0 (.CheckIn "0xA" 7)
       (Projection.applyEvent 0 (.WillCreated "0xA" 3 4)
         Projection.emptyDB) "0xA" 5).2
     (by decide) (by decide)⟩

namespace Projection

theorem map_strip_congr (f1 f2 : WillRow → WillRow)
    (hf : ∀ r1 r2, stripWill r1 = stripWill r2 →
      stripWill (f1 r1) = stripWill (f2 r2)) :
    ∀ l1 l2 : List WillRow, l1.map stripWill = l2.map stripWill →
      (l1.map f1).map stripWill = (l2.map f2).map stripWill := by
  intro l1
  induction l1 with
  | nil =>
    intro l2 h
    cases l2 with
    | nil => rfl
    | cons y ys => simp at h
  | cons x xs ih =>
    intro l2 h
    cases l2 with
    | nil => simp at h
    | cons y ys =>
      simp only [List.map_cons, List.cons.injEq] at h ⊢
      exact ⟨hf x y h.1, ih ys h.2⟩

theorem upsert_strip_congr (r1 r2 : WillRow)
    (hr : stripWill r1 = stripWill r2) :
    ∀ l1 l2 : List WillRow, l1.map stripWill = l2.map stripWill →
      (upsertWill r1 l1).map stripWill = (upsertWill r2 l2).map stripWill := by
  intro l1
  induction l1 with
  | nil =>
    intro l2 h
    cases l2 with
    | nil => simpa [upsertWill] using hr
    | cons y ys => simp at h
  | cons x xs ih =>
    intro l2 h
    cases l2 with
    | nil => simp at h
    | cons y ys =>
      simp only [List.map_cons, List.cons.injEq] at h
      have hid : x.willId = y.willId := congrArg Prod.fst h.1
      have hrid : r1.willId = r2.willId := congrArg Prod.fst hr
      by_cases hx : x.willId = r1.willId
      · simp only [upsertWill]
        rw [if_pos hx, if_pos (by rw [← hid, ← hrid]; exact hx)]
        simp only [List.map_cons, List.cons.injEq]
        exact ⟨hr, h.2⟩
      · simp only [upsertWill]
        rw [if_neg hx, if_neg (by rw [← hid, ← hrid]; exact hx)]
        simp only [List.map_cons, List.cons.injEq]
        exact ⟨h.1, ih ys h.2⟩

theorem willRowExists_strip_congr :
    ∀ (l1 l2 : List WillRow), l1.map stripWill = l2.map stripWill →
      ∀ wid, l1.any (fun w => w.willId = wid)
        = l2.any (fun w => w.willId = wid) := by
  intro l1
  induction l1 with
  | nil =>
    intro l2 h wid
    cases l2 with
    | nil => rfl
    | cons y ys => simp at h
  | cons x xs ih =>
    intro l2 h wid
    cases l2 with
    | nil => simp at h
    | cons y ys =>
      simp only [List.map_cons, List.cons.injEq] at h
      have hid : x.willId = y.willId := congrArg Prod.fst h.1
      simp [List.any_cons, hid, ih ys h.2]

/-- One event applied at two different wall-clock times to two replicas
that agree outside the timestamp columns keeps that agreement. -/
theorem applyEvent_strip_congr (n1 n2 : Nat) (e : Event) (db1 db2 : DB)
    (h : stripDB db1 = stripDB db2) :
    stripDB (applyEvent n1 e db1) = stripDB (applyEvent n2 e db2) := by
  have hw : db1.wills.map stripWill = db2.wills.map stripWill :=
    congrArg Prod.fst h
  have hb : db1.bens = db2.bens :=
    congrArg (fun x => x.2.1) h
  have hv : db1.vaults = db2.vaults :=
    congrArg (fun x => x.2.2) h
  cases e with
  | WillCreated t cp dp =>
    simp only [applyEvent, dbCreateWill, initializeVaults, stripDB,
      Prod.mk.injEq]
    refine ⟨upsert_strip_congr
      ⟨lowerStr t, lowerStr t, none, cp, dp, n1, false, n1, n1⟩
      ⟨lowerStr t, lowerStr t, none, cp, dp, n2, false, n2, n2⟩
      rfl _ _ hw, hb, by rw [hv]⟩
  | CheckIn t ts =>
    simp only [applyEvent, dbUpdateLastCheckIn, stripDB, Prod.mk.injEq]
    refine ⟨?_, hb, hv⟩
    refine map_strip_congr _ _ ?_ _ _ hw
    intro r1 r2 hr
    have ht : r1.testator = r2.testator := congrArg (fun x => x.2.1) hr
    by_cases hx : r1.testator = lowerStr t
    · rw [if_pos hx, if_pos (ht.symm.trans hx)]
      simpa [stripWill] using hr
    · rw [if_neg hx, if_neg (fun hc => hx (ht.trans hc))]
      exact hr
  | WillExecuted t =>
    simp only [applyEvent, dbExecuteWill, stripDB, Prod.mk.injEq]
    refine ⟨?_, hb, hv⟩
    refine map_strip_congr _ _ ?_ _ _ hw
    intro r1 r2 hr
    have ht : r1.testator = r2.testator := congrArg (fun x => x.2.1) hr
    by_cases hx : r1.testator = lowerStr t
    · rw [if_pos hx, if_pos (ht.symm.trans hx)]
      simp only [stripWill] at hr ⊢
      simp at hr
      simp [hr]
    · rw [if_neg hx, if_neg (fun hc => hx (ht.trans hc))]
      exact hr
  | BeneficiaryAdded t b s g =>
    have hexeq : willRowExists db1 (lowerStr t)
        = willRowExists db2 (lowerStr t) :=
      willRowExists_strip_congr db1.wills db2.wills hw (lowerStr t)
    by_cases hx : willRowExists db1 (lowerStr t) = true
    · have hx2 : willRowExists db2 (lowerStr t) = true := hexeq.symm.trans hx
      cases g with
      | false =>
        simp only [applyEvent, dbAddBeneficiary, Bool.false_eq_true,
          if_false]
        rw [if_pos hx, if_pos hx2]
        simp only [stripDB, Prod.mk.injEq]
        exact ⟨hw, by rw [hb], hv⟩
      | true =>
        simp only [applyEvent, dbAddBeneficiary, dbUpdateGuardian, if_true]
        rw [if_pos hx, if_pos hx2]
        simp only [stripDB, Prod.mk.injEq]
        refine ⟨?_, by rw [hb], hv⟩
        refine map_strip_congr _ _ ?_ _ _ hw
        intro r1 r2 hr
        have hid : r1.willId = r2.willId := congrArg Prod.fst hr
        by_cases hy : r1.willId = lowerStr t
        · rw [if_pos hy, if_pos (hid.symm.trans hy)]
          simp only [stripWill] at hr ⊢
          simp at hr
          simp [hr]
        · rw [if_neg hy, if_neg (fun hc => hy (hid.trans hc))]
          exact hr
    · have hx2 : ¬willRowExists db2 (lowerStr t) = true := fun hc =>
        hx (hexeq.trans hc)
      simp only [applyEvent, dbAddBeneficiary]
      rw [if_neg hx, if_neg hx2]
      exact h
  | BeneficiaryRemoved t b =>
    simp only [applyEvent, dbRemoveBeneficiary, stripDB, Prod.mk.injEq]
    refine ⟨?_, by rw [hb], hv⟩
    refine map_strip_congr _ _ ?_ _ _ hw
    intro r1 r2 hr
    have hid : r1.willId = r2.willId := congrArg Prod.fst hr
    have hg : r1.guardian = r2.guardian := congrArg (fun x => x.2.2.1) hr
    by_cases hx : r1.willId = lowerStr t ∧ r1.guardian = some (lowerStr b)
    · rw [if_pos hx, if_pos ⟨hid.symm.trans hx.1, hg.symm.trans hx.2⟩]
      simp only [stripWill, Prod.mk.injEq] at hr ⊢
      simp at hr ⊢
      tauto
    · rw [if_neg hx, if_neg (fun hc =>
        hx ⟨hid.trans hc.1, hg.trans hc.2⟩)]
      exact hr
  | BeneficiaryUpdated t b s g =>
    cases g with
    | false =>
      simp only [applyEvent, dbUpdateBeneficiary, Bool.false_eq_true,
        if_false, stripDB, Prod.mk.injEq]
      exact ⟨hw, by rw [hb], hv⟩
    | true =>
      simp only [applyEvent, dbUpdateBeneficiary, dbUpdateGuardian, if_true,
        stripDB, Prod.mk.injEq]
      refine ⟨?_, by rw [hb], hv⟩
      refine map_strip_congr _ _ ?_ _ _ hw
      intro r1 r2 hr
      have hid : r1.willId = r2.willId := congrArg Prod.fst hr
      by_cases hx : r1.willId = lowerStr t
      · rw [if_pos hx, if_pos (hid.symm.trans hx)]
        simp only [stripWill] at hr ⊢
        simp at hr
        simp [hr]
      · rw [if_neg hx, if_neg (fun hc => hx (hid.trans hc))]
        exact hr
  | DepositLocked t a =>
    have hexeq : willRowExists db1 (lowerStr t)
        = willRowExists db2 (lowerStr t) :=
      willRowExists_strip_congr db1.wills db2.wills hw (lowerStr t)
    by_cases hx : willRowExists db1 (lowerStr t) = true
    · simp only [applyEvent, dbUpdateVaultBalance]
      rw [if_pos hx, if_pos (hexeq.symm.trans hx)]
      simp only [stripDB, Prod.mk.injEq]
      exact ⟨hw, hb, by rw [hv]⟩
    · simp only [applyEvent, dbUpdateVaultBalance]
      rw [if_neg hx, if_neg (fun hc => hx (hexeq.trans hc))]
      exact h
  | DepositFlexible t a =>
    have hexeq : willRowExists db1 (lowerStr t)
        = willRowExists db2 (lowerStr t) :=
      willRowExists_strip_congr db1.wills db2.wills hw (lowerStr t)
    by_cases hx : willRowExists db1 (lowerStr t) = true
    · simp only [applyEvent, dbUpdateVaultBalance]
      rw [if_pos hx, if_pos (hexeq.symm.trans hx)]
      simp only [stripDB, Prod.mk.injEq]
      exact ⟨hw, hb, by rw [hv]⟩
    · simp only [applyEvent, dbUpdateVaultBalance]
      rw [if_neg hx, if_neg (fun hc => hx (hexeq.trans hc))]
      exact h
  | WithdrawFlexible t a =>
    have hexeq : willRowExists db1 (lowerStr t)
        = willRowExists db2 (lowerStr t) :=
      willRowExists_strip_congr db1.wills db2.wills hw (lowerStr t)
    by_cases hx : willRowExists db1 (lowerStr t) = true
    · simp only [applyEvent, dbUpdateVaultBalance]
      rw [if_pos hx, if_pos (hexeq.symm.trans hx)]
      simp only [stripDB, Prod.mk.injEq]
      exact ⟨hw, hb, by rw [hv]⟩
    · simp only [applyEvent, dbUpdateVaultBalance]
      rw [if_neg hx, if_neg (fun hc => hx (hexeq.trans hc))]
      exact h
  | DisputeStarted t =>
    simpa [applyEvent] using h

theorem applyEvents_strip_congr :
    ∀ (s1 s2 : List (Nat × Event)) (db1 db2 : DB),
      s1.map Prod.snd = s2.map Prod.snd → stripDB db1 = stripDB db2 →
      stripDB (applyEvents s1 db1) = stripDB (applyEvents s2 db2) := by
  intro s1
  induction s1 with
  | nil =>
    intro s2 db1 db2 h hdb
    cases s2 with
    | nil => simpa [applyEvents] using hdb
    | cons y ys => simp at h
  | cons te tes ih =>
    intro s2 db1 db2 h hdb
    cases s2 with
    | nil => simp at h
    | cons te2 tes2 =>
      simp only [List.map_cons, List.cons.injEq] at h
      have hstep : stripDB (applyEvent te.1 te.2 db1)
          = stripDB (applyEvent te2.1 te2.2 db2) := by
        rw [show te.2 = te2.2 from h.1] at *
        exact applyEvent_strip_congr te.1 te2.1 te2.2 db1 db2 hdb
      simpa [applyEvents, List.foldl_cons] using
        ih tes2 (applyEvent te.1 te.2 db1) (applyEvent te2.1 te2.2 db2)
          h.2 hstep

end Projection

/-- C3 counterexample: the replica is not a pure function of the event
sequence alone.  Applying the same single `WillCreated` event at wall-clock
time 0 versus time 1 yields different replica contents (the stored
`lastCheckIn`, `createdAt` and `updatedAt` come from `Date.now()` at apply
time, not from the event). -/
theorem C3_counterexample :
    Projection.applyEvents [(0, .WillCreated "0xA" 3 4)] Projection.emptyDB
      ≠ Projection.applyEvents [(1, .WillCreated "0xA" 3 4)]
          Projection.emptyDB := by
  decide

/-- C3 (amended): the replica is a pure function of the event sequence
together with the wall-clock times at which the events are applied;
excluding each will's `lastCheckIn`, `createdAt` and `updatedAt` columns,
it is a pure function of the ordered event sequence alone: two runs that
apply the same events at arbitrary (possibly different) wall-clock times
produce replicas identical outside those timestamp columns. -/
theorem C3_amended_determinism (s1 s2 : List (Nat × Projection.Event))
    (h : s1.map Prod.snd = s2.map Prod.snd) :
    Projection.stripDB (Projection.applyEvents s1 Projection.emptyDB)
      = Projection.stripDB (Projection.applyEvents s2 Projection.emptyDB) :=
  Projection.applyEvents_strip_congr s1 s2 Projection.emptyDB
    Projection.emptyDB h rfl

/-- Witness for C3 (amended): the same two-event history applied at times
(0, 5) and at times (100, 200) gives the same stripped replica. -/
theorem C3_witness :
    ([(0, Projection.Event.WillCreated "0xA" 3 4),
      (5, Projection.Event.BeneficiaryAdded "0xA" "0xB" 40 true)].map
        Prod.snd
      = [(100, Projection.Event.WillCreated "0xA" 3 4),
         (200, Projection.Event.BeneficiaryAdded "0xA" "0xB" 40 true)].map
           Prod.snd) ∧
    Projection.stripDB (Projection.applyEvents
        [(0, Projection.Event.WillCreated "0xA" 3 4),
         (5, Projection.Event.BeneficiaryAdded "0xA" "0xB" 40 true)]
        Projection.emptyDB)
      = Projection.stripDB (Projection.applyEvents
          [(100, Projection.Event.WillCreated "0xA" 3 4),
           (200, Projection.Event.BeneficiaryAdded "0xA" "0xB" 40 true)]
          Projection.emptyDB) :=
  ⟨by decide,
   C3_amended_determinism
     [(0, Projection.Event.WillCreated "0xA" 3 4),
      (5, Projection.Event.BeneficiaryAdded "0xA" "0xB" 40 true)]
     [(100, Projection.Event.WillCreated "0xA" 3 4),
      (200, Projection.Event.BeneficiaryAdded "0xA" "0xB" 40 true)]
     (by decide)⟩

/-- C9 counterexample: not every read endpoint returns 404 for a
well-formed identity naming an unknown resource.  `GET /vaults/:willId`
with a valid address absent from the replica returns 200 with an empty
vault list, not 404. -/
theorem C9_counterexample :
    Api.isValidAddress "0xaaaaaaaaaaaaaaaaaaaaaaaaaaaaaaaaaaaaaaaa"
      = true ∧
    Api.getVaults Projection.emptyDB
      "0xaaaaaaaaaaaaaaaaaaaaaaaaaaaaaaaaaaaaaaaa" = [] ∧
    (Api.vaultsHandler Projection.emptyDB
      "0xaaaaaaaaaaaaaaaaaaaaaaaaaaaaaaaaaaaaaaaa").status = 200 ∧
    (Api.vaultsHandler Projection.emptyDB
      "0xaaaaaaaaaaaaaaaaaaaaaaaaaaaaaaaaaaaaaaaa").status ≠ 404 :=
  ⟨by decide, by decide, by decide, by decide⟩

/-- C9 (amended): every endpoint validates the address shape first and
returns a fixed 400 response (independent of the database) on malformed
input; `/will/:id` returns 404 for a well-formed unknown id and 200 with
the detail otherwise; `/vaults/:willId` returns 200 with the (possibly
empty) vault rows for every well-formed id, never 404; and a handler
failure produces a 500 with a generic message, the underlying detail being
exposed only in development mode. -/
theorem C9_api_error_contract (db : Projection.DB) (id : String)
    (d : Api.WillDetail) (α : Type) (dev : Bool) (msg err : String) :
    (Api.isValidAddress id = false →
      Api.willHandler db id =
        { status := 400, success := false,
          errMsg := some "Invalid will ID format (should be testator address)",
          details := none, data := none } ∧
      Api.vaultsHandler db id =
        { status := 400, success := false,
          errMsg := some "Invalid will ID format (should be testator address)",
          details := none, data := none } ∧
      Api.willsByTestatorHandler db id =
        { status := 400, success := false,
          errMsg := some "Invalid testator address format",
          details := none, data := none }) ∧
    (Api.isValidAddress id = true → Api.getWillDetails db id = none →
      Api.willHandler db id =
        { status := 404, success := false,
          errMsg := some "Will not found", details := none, data := none }) ∧
    (Api.isValidAddress id = true → Api.getWillDetails db id = some d →
      Api.willHandler db id =
        { status := 200, success := true, errMsg := none, details := none,
          data := some d }) ∧
    (Api.isValidAddress id = true →
      Api.vaultsHandler db id =
        { status := 200, success := true, errMsg := none, details := none,
          data := some (Api.getVaults db id) }) ∧
    (Api.tryCatch α dev msg (.error err) =
      { status := 500, success := false, errMsg := some msg,
        details := if dev then some err else none, data := none }) := by
  refine ⟨?_, ?_, ?_, ?_, rfl⟩
  · intro h
    refine ⟨?_, ?_, ?_⟩
    · simp [Api.willHandler, h]
    · simp [Api.vaultsHandler, h]
    · simp [Api.willsByTestatorHandler, h]
  · intro h hN
    simp [Api.willHandler, h, hN]
  · intro h hS
    simp [Api.willHandler, h, hS]
  · intro h
    simp [Api.vaultsHandler, h]

/-- Witness for C9 (amended): a malformed id gets the fixed 400 responses;
the valid unknown address `0xbb…b` gets 404 from `/will/:id`; a replica
holding one will returns its detail with 200; `/vaults` returns 200 on the
empty replica; and a thrown handler error maps to the generic 500. -/
theorem C9_witness :
    Api.isValidAddress "zz" = false ∧
    Api.willHandler Projection.emptyDB "zz" =
      { status := 400, success := false,
        errMsg := some "Invalid will ID format (should be testator address)",
        details := none, data := none } ∧
    Api.isValidAddress "0xbbbbbbbbbbbbbbbbbbbbbbbbbbbbbbbbbbbbbbbb"
      = true ∧
    Api.getWillDetails Projection.emptyDB
      "0xbbbbbbbbbbbbbbbbbbbbbbbbbbbbbbbbbbbbbbbb" = none ∧
    Api.willHandler Projection.emptyDB
      "0xbbbbbbbbbbbbbbbbbbbbbbbbbbbbbbbbbbbbbbbb" =
      { status := 404, success := false, errMsg := some "Will not found",
        details := none, data := none } ∧
    Api.vaultsHandler Projection.emptyDB
      "0xbbbbbbbbbbbbbbbbbbbbbbbbbbbbbbbbbbbbbbbb" =
      { status := 200, success := true, errMsg := none, details := none,
        data := some (Api.getVaults Projection.emptyDB
          "0xbbbbbbbbbbbbbbbbbbbbbbbbbbbbbbbbbbbbbbbb") } ∧
    Api.tryCatch (List Projection.VaultRow) false "oops" (.error "boom") =
      { status := 500, success := false, errMsg := some "oops",
        details := none, data := none } ∧
    Api.getWillDetails
      (Projection.DB.mk
        [⟨"0xbbbbbbbbbbbbbbbbbbbbbbbbbbbbbbbbbbbbbbbb",
          "0xbbbbbbbbbbbbbbbbbbbbbbbbbbbbbbbbbbbbbbbb",
          none, 3, 4, 7, false, 7, 7⟩] [] [])
      "0xbbbbbbbbbbbbbbbbbbbbbbbbbbbbbbbbbbbbbbbb"
      = some (⟨"0xbbbbbbbbbbbbbbbbbbbbbbbbbbbbbbbbbbbbbbbb",
          "0xbbbbbbbbbbbbbbbbbbbbbbbbbbbbbbbbbbbbbbbb",
          none, 3, 4, 7, false, 7, 7⟩, [], []) ∧
    Api.willHandler
      (Projection.DB.mk
        [⟨"0xbbbbbbbbbbbbbbbbbbbbbbbbbbbbbbbbbbbbbbbb",
          "0xbbbbbbbbbbbbbbbbbbbbbbbbbbbbbbbbbbbbbbbb",
          none, 3, 4, 7, false, 7, 7⟩] [] [])
      "0xbbbbbbbbbbbbbbbbbbbbbbbbbbbbbbbbbbbbbbbb" =
      { status := 200, success := true, errMsg := none, details := none,
        data := some (⟨"0xbbbbbbbbbbbbbbbbbbbbbbbbbbbbbbbbbbbbbbbb",
          "0xbbbbbbbbbbbbbbbbbbbbbbbbbbbbbbbbbbbbbbbb",
          none, 3, 4, 7, false, 7, 7⟩, [], []) } :=
  ⟨by decide,
   (C9_api_error_contract Projection.emptyDB "zz"
     ⟨⟨"", "", none, 0, 0, 0, false, 0, 0⟩, [], []⟩
     (List Projection.VaultRow) false "oops" "boom").1 (by decide)
     |>.1,
   by decide,
   by decide,
   (C9_api_error_contract Projection.emptyDB
     "0xbbbbbbbbbbbbbbbbbbbbbbbbbbbbbbbbbbbbbbbb"
     ⟨⟨"", "", none, 0, 0, 0, false, 0, 0⟩, [], []⟩
     (List Projection.VaultRow) false "oops" "boom").2.1 (by decide)
     (by decide),
   (C9_api_error_contract Projection.emptyDB
     "0xbbbbbbbbbbbbbbbbbbbbbbbbbbbbbbbbbbbbbbbb"
     ⟨⟨"", "", none, 0, 0, 0, false, 0, 0⟩, [], []⟩
     (List Projection.VaultRow) false "oops" "boom").2.2.2.1 (by decide),
   (C9_api_error_contract Projection.emptyDB
     "0xbbbbbbbbbbbbbbbbbbbbbbbbbbbbbbbbbbbbbbbb"
     ⟨⟨"", "", none, 0, 0, 0, false, 0, 0⟩, [], []⟩
     (List Projection.VaultRow) false "oops" "boom").2.2.2.2,
   by decide,
   (C9_api_error_contract
     (Projection.DB.mk
       [⟨"0xbbbbbbbbbbbbbbbbbbbbbbbbbbbbbbbbbbbbbbbb",
         "0xbbbbbbbbbbbbbbbbbbbbbbbbbbbbbbbbbbbbbbbb",
         none, 3, 4, 7, false, 7, 7⟩] [] [])
     "0xbbbbbbbbbbbbbbbbbbbbbbbbbbbbbbbbbbbbbbbb"
     (⟨"0xbbbbbbbbbbbbbbbbbbbbbbbbbbbbbbbbbbbbbbbb",
         "0xbbbbbbbbbbbbbbbbbbbbbbbbbbbbbbbbbbbbbbbb",
         none, 3, 4, 7, false, 7, 7⟩, [], [])
     (List Projection.VaultRow) false "oops" "boom").2.2.1 (by decide)
     (by decide)⟩
